import Mathlib

/-!
Shallow embedding of `touch_keyboard_haptic.py`: the multitouch slot tracker,
region hit-tester, gesture detector and key-emission state machine, together
with proofs of the specification claims about it.

Conventions of the embedding:
* machine integers (coordinates, sizes, key codes, event values) are `Int`/`Nat`;
* `time.time()` timestamps and the float constants 0.3 / 0.15 are exact
  rationals (`SWIPE_COOLDOWN = 3/10`, `VIEWPORT_TAP_TIMEOUT = 3/20`);
* a Python dict-backed slot is a structure of `Option` fields
  (`none` = key absent or stored `None`; `.getD` mirrors `dict.get(k, d)`);
* a Python `set` of button names is a duplicate-free `List String` in
  insertion order (Python set iteration order is unspecified; the claims under
  proof only count emissions per name, which is order-independent);
* a `key` binding that is a single code in Python is embedded as a singleton
  list, a list of two codes as a two-element list (`emit_key` writes each code
  of the list in order, exactly as the Python loop does);
* each processed input event carries the `time.time()` value observed while
  handling it, and every key emission is stamped with that time.

The scaled region rectangles are the startup output of
`int(coord * X_SCALE)` / `int(coord * Y_SCALE)` with
`X_SCALE = 800/480`, `Y_SCALE = 480/800` computed in IEEE-754 doubles; for
every coordinate in the table the double computation agrees with the exact
rational floor, and the values below are those printed constants.
-/

namespace Nintardis

/-- Linux input key codes used by the script (`evdev.ecodes` values). -/
def KEY_ESC : Nat := 1
def KEY_E : Nat := 18
def KEY_ENTER : Nat := 28
def KEY_LEFTCTRL : Nat := 29
def KEY_A : Nat := 30
def KEY_S : Nat := 31
def KEY_L : Nat := 38
def KEY_B : Nat := 48
def KEY_UP : Nat := 103
def KEY_LEFT : Nat := 105
def KEY_RIGHT : Nat := 106
def KEY_DOWN : Nat := 108

/-- A named rectangular hit region bound to one or two key codes, with its
rectangle already converted to touch-device coordinates (the conversion
happens once in `__init__`). -/
structure Region where
  name : String
  key : List Nat
  x1 : Int
  y1 : Int
  x2 : Int
  y2 : Int
deriving DecidableEq

/-- The scaled catalog entries (the startup conversion of `TOUCH_REGIONS`). -/
def region_LOAD : Region := ⟨"LOAD", [KEY_L, KEY_E], 65, 232, 265, 262⟩
def region_A : Region := ⟨"A BTN", [KEY_A], 591, 304, 763, 365⟩
def region_B : Region := ⟨"B BTN", [KEY_B], 416, 305, 585, 364⟩
def region_START : Region := ⟨"START", [KEY_ENTER], 400, 411, 561, 436⟩
def region_SELECT : Region := ⟨"SELECT", [KEY_LEFTCTRL], 260, 411, 400, 438⟩
def region_RIGHT : Region := ⟨"RIGHT", [KEY_RIGHT], 195, 320, 363, 356⟩
def region_UP : Region := ⟨"UP", [KEY_UP], 131, 278, 270, 313⟩
def region_LEFT : Region := ⟨"LEFT", [KEY_LEFT], 36, 313, 160, 356⟩
def region_DOWN : Region := ⟨"DOWN", [KEY_DOWN], 145, 356, 265, 394⟩
def region_SAVE : Region := ⟨"SAVE", [KEY_S, KEY_E], 280, 232, 515, 262⟩
def region_EXIT : Region := ⟨"EXIT", [KEY_ENTER, KEY_E], 531, 232, 760, 262⟩

/-- The converted region catalog `self.touch_regions`: the `TOUCH_REGIONS`
table with each physical rectangle scaled into touch space, in source order. -/
def touch_regions : List Region :=
  [ region_LOAD, region_A, region_B, region_START, region_SELECT,
    region_RIGHT, region_UP, region_LEFT, region_DOWN, region_SAVE,
    region_EXIT ]

/-- The converted `VIEWPORT_REGION` (`self.viewport`): physical
(0,0)-(480,388) scaled to touch space. -/
def viewport : Region := ⟨"VIEWPORT", [KEY_ENTER], 0, 0, 800, 232⟩

/-- Gesture-detection constants from the source. -/
def SWIPE_MIN_DISTANCE : Int := 60
def SWIPE_MIN_VERTICAL : Int := 50
def SWIPE_MAX_OFF_AXIS : Int := 70
def SWIPE_COOLDOWN : ℚ := 3/10
def VIEWPORT_TAP_TIMEOUT : ℚ := 3/20
def TOUCH_SIZE_THRESHOLD : Int := 40

/-- Closed-rectangle containment test `x1 <= x <= x2 and y1 <= y <= y2`. -/
def containsPt (r : Region) (x y : Int) : Bool :=
  r.x1 ≤ x && x ≤ r.x2 && r.y1 ≤ y && y ≤ r.y2

/-- The RIGHT+B combo box test
`138 * X_SCALE <= x <= 339 * X_SCALE and 505 * Y_SCALE <= y <= 607 * Y_SCALE`.
In IEEE doubles `138 * X_SCALE = 230.0`, `339 * X_SCALE = 565.0`,
`505 * Y_SCALE = 303.0` exactly, and `607 * Y_SCALE` is just below 364.2, so
for the integer coordinates delivered by the event source the test is exactly
the integer comparisons below. -/
def in_right_b_box (x y : Int) : Bool :=
  230 ≤ x && x ≤ 565 && 303 ≤ y && y ≤ 364

/-- The inner combo step of the region scan: when the matched region is
`A BTN` or `B BTN` and the touch is large, the loop looks up the other face
button by name (first match, as the Python `for`/`break`) and appends it. -/
def comboPartner (r : Region) (touch_size : Int) : List Region :=
  if touch_size ≥ TOUCH_SIZE_THRESHOLD && (r.name == "A BTN" || r.name == "B BTN") then
    (touch_regions.find? (fun r2 =>
      r2.name == (if r.name == "A BTN" then "B BTN" else "A BTN"))).toList
  else []

/-- The first loop of `check_touch_regions`: for each catalog region in order,
append it when it contains the point, immediately followed by its combo
partner when the A+B combo rule applies. -/
def baseScan (x y touch_size : Int) : List Region :=
  touch_regions.flatMap (fun r =>
    if containsPt r x y then r :: comboPartner r touch_size else [])

/-- `check_touch_regions(x, y, touch_size)`: the base scan, then the RIGHT+B
combination box handling (scan the collected list for `B BTN` / `RIGHT` and
append whichever is missing, `B BTN` first). -/
def check_touch_regions (x y touch_size : Int) : List Region :=
  let active := baseScan x y touch_size
  if in_right_b_box x y && touch_size ≥ TOUCH_SIZE_THRESHOLD then
    let found_b := active.any (fun r => r.name == "B BTN")
    let found_right := active.any (fun r => r.name == "RIGHT")
    let active2 := if found_b then active else
      active ++ (touch_regions.find? (fun r => r.name == "B BTN")).toList
    let active3 := if found_right then active2 else
      active2 ++ (touch_regions.find? (fun r => r.name == "RIGHT")).toList
    active3
  else active

/-- `is_in_viewport(x, y)`: containment in the converted viewport rectangle. -/
def is_in_viewport (x y : Int) : Bool :=
  containsPt viewport x y

/-- One call to `emit_key(key_code, value, region_name)` as observed at the
key-event level: the code list written, the value (1 = press, 0 = release),
the `region_name` argument, and the `time.time()` stamp of the handler that
made the call. -/
structure KeyEmit where
  codes : List Nat
  value : Int
  name : String
  time : ℚ
deriving DecidableEq

/-- Per-contact slot state: the Python dict stored in `self.touch_slots`.
Every field is optional because the dict starts empty (`{}`) and keys are
added individually; `none` also stands for an explicitly stored `None`
(indistinguishable through `dict.get`). -/
structure Slot where
  tracking_id : Option Int := none
  x : Option Int := none
  y : Option Int := none
  start_x : Option Int := none
  start_y : Option Int := none
  last_swipe_time : Option ℚ := none
  button_pressed : Option Bool := none
  touch_start_time : Option ℚ := none
  swipe_detected : Option Bool := none
  in_viewport : Option Bool := none
  active_buttons : Option (List String) := none
  touch_size : Option Int := none
deriving DecidableEq

/-- Mapper state: the slot table (total function with the empty dict as the
default of `dict.get(slot, {})`), the currently selected slot, and the
`active_gestures` set (as a list). -/
structure Mapper where
  touch_slots : Int → Slot
  current_slot : Int
  active_gestures : List Int

/-- The mapper state right after `__init__`. -/
def initMapper : Mapper :=
  { touch_slots := fun _ => {}, current_slot := 0, active_gestures := [] }

/-- Store a slot dict back into the table. -/
def setSlot (m : Mapper) (i : Int) (s : Slot) : Mapper :=
  { m with touch_slots := fun j => if j = i then s else m.touch_slots j }

/-- The release loop `for region in self.touch_regions: if region['name'] ==
button: await emit_key(key, 0, name)` (no break: every catalog entry with the
matching name emits; names are unique so at most one does). -/
def releaseName (button : String) (now : ℚ) : List KeyEmit :=
  (touch_regions.filter (fun r => r.name == button)).map
    (fun r => ⟨r.key, 0, r.name, now⟩)

/-- `can_trigger_swipe(slot_id)`: no latched gesture for the slot, no active
button, and the cooldown elapsed since `last_swipe_time` (default 0). -/
def can_trigger_swipe (m : Mapper) (now : ℚ) (slot_id : Int) : Bool :=
  let slot := m.touch_slots slot_id
  !(m.active_gestures.contains slot_id) &&
  !(slot.button_pressed.getD false) &&
  decide (now - slot.last_swipe_time.getD 0 > SWIPE_COOLDOWN)

/-- `process_tracking_id(event)`. `event.value = -1` ends the contact of the
current slot: release every name in `active_buttons`, drop the slot from
`active_gestures`, emit the viewport tap when the tap conditions hold, and
reset the slot dict to `{}`. Any other value starts a contact with a fresh
slot dict. -/
def process_tracking_id (m : Mapper) (now : ℚ) (value : Int) :
    Mapper × List KeyEmit :=
  let slot := m.touch_slots m.current_slot
  if value = -1 then
    let rel := (slot.active_buttons.getD []).flatMap (fun b => releaseName b now)
    let m1 : Mapper := { m with active_gestures := m.active_gestures.erase m.current_slot }
    let tap :=
      if slot.in_viewport.getD false = true ∧
         slot.swipe_detected.getD false = false ∧
         slot.button_pressed.getD false = false ∧
         now - slot.touch_start_time.getD 0 < VIEWPORT_TAP_TIMEOUT then
        [⟨viewport.key, 1, "VIEWPORT", now⟩, ⟨viewport.key, 0, "VIEWPORT", now⟩]
      else ([] : List KeyEmit)
    (setSlot m1 m.current_slot {}, rel ++ tap)
  else
    (setSlot m m.current_slot
      { tracking_id := some value,
        start_x := none,
        start_y := none,
        last_swipe_time := some 0,
        button_pressed := some false,
        touch_start_time := some now,
        swipe_detected := some false,
        in_viewport := some false,
        active_buttons := some [],
        touch_size := some 0 }, [])

/-- Directional names, `{'UP', 'DOWN', 'LEFT', 'RIGHT'}`. -/
def directional_keys : List String := ["UP", "DOWN", "LEFT", "RIGHT"]

/-- `set.add` on the insertion-ordered list embedding of a Python set. -/
def addName (l : List String) (n : String) : List String :=
  if n ∈ l then l else l ++ [n]

/-- `update_active_buttons(slot, new_regions)`: returns the new
`current_buttons` set together with the emissions, in the source's order:
releases of departed directional names, then presses of newly present names,
then releases of departed non-directional names. The press test is against
the slot's previous `active_buttons`, exactly as in the source. -/
def update_active_buttons (slot : Slot) (new_regions : List Region) (now : ℚ) :
    List String × List KeyEmit :=
  let old := slot.active_buttons.getD []
  let old_directionals := old.filter (fun b => b ∈ directional_keys)
  let new_directionals :=
    (new_regions.map Region.name).filter (fun n => n ∈ directional_keys)
  let relDir := (old_directionals.filter (fun b => b ∉ new_directionals)).flatMap
    (fun b => releaseName b now)
  let current_buttons := new_regions.foldl (fun acc r => addName acc r.name) []
  let presses := (new_regions.filter (fun r => r.name ∉ old)).map
    (fun r => KeyEmit.mk r.key 1 r.name now)
  let old_non_directionals := old.filter (fun b => b ∉ directional_keys)
  let relNon := (old_non_directionals.filter (fun b => b ∉ current_buttons)).flatMap
    (fun b => releaseName b now)
  (current_buttons, relDir ++ presses ++ relNon)

/-- Which coordinate axis a position packet updates
(`ABS_MT_POSITION_X`, `ABS_MT_POSITION_Y`, `ABS_MT_TOUCH_MAJOR`). -/
inductive PosCode where
  | x
  | y
  | major
deriving DecidableEq

/-- The coordinate/size update at the top of `process_touch_position`:
store the value under the event's axis, and record `start_x`/`start_y` on the
first x/y packet of a contact. -/
def store_position (slot0 : Slot) (code : PosCode) (value : Int) : Slot :=
  match code with
  | .x =>
    { slot0 with
      x := some value,
      start_x := if slot0.start_x = none then some value else slot0.start_x }
  | .y =>
    { slot0 with
      y := some value,
      start_y := if slot0.start_y = none then some value else slot0.start_y }
  | .major => { slot0 with touch_size := some value }

/-- The swipe-detection block of the viewport branch of
`process_touch_position`, guarded by `can_trigger_swipe`: horizontal check
first, else vertical, else nothing; on a firing, emit the press/release pair,
stamp `last_swipe_time`, rebase the origin to the current point and latch
`swipe_detected`. -/
def gesture_detect (can : Bool) (slot3 : Slot) (now : ℚ) (xv yv : Int) :
    Slot × List KeyEmit :=
  if can then
    let dx := xv - slot3.start_x.getD 0
    let dy := yv - slot3.start_y.getD 0
    if |dx| > SWIPE_MIN_DISTANCE ∧ |dy| < SWIPE_MAX_OFF_AXIS then
      let key := if dx > 0 then KEY_RIGHT else KEY_LEFT
      let nm := if dx > 0 then "Swipe right" else "Swipe left"
      let slot4 : Slot :=
        { slot3 with
          last_swipe_time := some now,
          start_x := slot3.x,
          start_y := slot3.y,
          swipe_detected := some true }
      (slot4, [⟨[key], 1, nm, now⟩, ⟨[key], 0, nm, now⟩])
    else if |dy| > SWIPE_MIN_VERTICAL ∧ |dx| < SWIPE_MAX_OFF_AXIS then
      let key := if dy > 0 then KEY_DOWN else KEY_UP
      let nm := if dy > 0 then "Swipe down" else "Swipe up"
      let slot4 : Slot :=
        { slot3 with
          last_swipe_time := some now,
          start_x := slot3.x,
          start_y := slot3.y,
          swipe_detected := some true }
      (slot4, [⟨[key], 1, nm, now⟩, ⟨[key], 0, nm, now⟩])
    else
      (slot3, [])
  else
    (slot3, [])

/-- The viewport branch of `process_touch_position`: mark `in_viewport`,
release (and clear) any previously active buttons, then run swipe detection
under the `can_trigger_swipe` guard. -/
def viewport_branch (m : Mapper) (cs : Int) (slot1 : Slot) (now : ℚ)
    (xv yv : Int) : Mapper × List KeyEmit :=
  let slot2 : Slot := { slot1 with in_viewport := some true }
  let oldB := slot2.active_buttons.getD []
  let slot3 : Slot := if oldB ≠ [] then { slot2 with active_buttons := some [] } else slot2
  let emits1 := if oldB ≠ [] then oldB.flatMap (fun b => releaseName b now) else []
  let res2 := gesture_detect (can_trigger_swipe (setSlot m cs slot3) now cs)
    slot3 now xv yv
  (setSlot m cs res2.1, emits1 ++ res2.2)

/-- `process_touch_position(event)`: update the slot's coordinate or size,
store it back, and when both coordinates are known run the hit test and the
three-way branch (button mode / viewport gesture mode / outside-everything).
`start_x`/`start_y` are always set by the first x/y packet of a contact, so
they are present whenever `x`/`y` are; the `.getD 0` on them in the gesture
arithmetic is never exercised with the default. -/
def process_touch_position (m : Mapper) (now : ℚ) (code : PosCode) (value : Int) :
    Mapper × List KeyEmit :=
  let cs := m.current_slot
  let slot0 := m.touch_slots cs
  let slot1 : Slot := store_position slot0 code value
  match slot1.x, slot1.y with
  | some xv, some yv =>
    let touch_size := slot1.touch_size.getD 0
    let regions := check_touch_regions xv yv touch_size
    if regions ≠ [] then
      let res := update_active_buttons slot1 regions now
      let slot2 : Slot :=
        { slot1 with
          active_buttons := some res.1,
          button_pressed := some true }
      (setSlot m cs slot2, res.2)
    else if is_in_viewport xv yv then
      viewport_branch m cs slot1 now xv yv
    else
      if (slot1.active_buttons.getD []) ≠ [] then
        (setSlot m cs
          { slot1 with
            active_buttons := some [],
            button_pressed := some false },
         (slot1.active_buttons.getD []).flatMap (fun b => releaseName b now))
      else
        (setSlot m cs slot1, [])
  | _, _ => (setSlot m cs slot1, [])

/-- One typed multitouch event as classified by the `run()` dispatcher. -/
inductive TEvent where
  | absSlot (v : Int)
  | trackingId (v : Int)
  | posX (v : Int)
  | posY (v : Int)
  | touchMajor (v : Int)
deriving DecidableEq

/-- One iteration of the `run()` event loop. The dispatcher handles only
`ABS_MT_SLOT`, `ABS_MT_TRACKING_ID`, `ABS_MT_POSITION_X` and
`ABS_MT_POSITION_Y` (source lines 349-354); an `ABS_MT_TOUCH_MAJOR` event
matches none of its branches and is dropped without being routed to
`process_touch_position`. -/
def runStep (m : Mapper) (now : ℚ) (e : TEvent) : Mapper × List KeyEmit :=
  match e with
  | .absSlot v => ({ m with current_slot := v }, [])
  | .trackingId v => process_tracking_id m now v
  | .posX v => process_touch_position m now .x v
  | .posY v => process_touch_position m now .y v
  | .touchMajor _ => (m, [])

/-- Process a timed event sequence in arrival order (the `run()` loop),
accumulating all key emissions. -/
def runTrace (m : Mapper) : List (ℚ × TEvent) → Mapper × List KeyEmit
  | [] => (m, [])
  | te :: evs =>
    let r := runStep m te.1 te.2
    let rest := runTrace r.1 evs
    (rest.1, r.2 ++ rest.2)

/-- The names of the region catalog, in order. -/
def regionNames : List String := touch_regions.map Region.name

/-- Number of press emissions carrying a given region name. -/
def pressCount (l : List KeyEmit) (n : String) : Nat :=
  (l.filter (fun e => e.name == n && e.value == 1)).length

/-- Number of release emissions carrying a given region name. -/
def releaseCount (l : List KeyEmit) (n : String) : Nat :=
  (l.filter (fun e => e.name == n && e.value == 0)).length

/-- Press minus release count for a name, as an integer. -/
def balance (l : List KeyEmit) (n : String) : Int :=
  (pressCount l n : Int) - (releaseCount l n : Int)

/-- Indicator of a name being in a slot's active set. -/
def slotInd (s : Slot) (n : String) : Int :=
  if n ∈ s.active_buttons.getD [] then 1 else 0

/-- Well-formedness of a slot's active set: duplicate-free and made of
catalog names (true in every reachable state). -/
def SlotOK (s : Slot) : Prop :=
  (s.active_buttons.getD []).Nodup ∧
  ∀ n ∈ s.active_buttons.getD [], n ∈ regionNames

/-! ### Sink-level model of `emit_key` / `trigger_haptic` (claim C9)

`drv.play()` either pulses the motor or raises; its outcome is an explicit
`Except` input. `trigger_haptic` wraps the call in `try/except`, turning a
raised error into a printed log line, so it returns plain data — an exception
can never escape it. `emit_key` is modelled at the sink-operation level
(uinput writes, the haptic attempt, the `syn()` flush), returning
`Except` to make "no exception propagates to the caller" a statement about
its result. -/

/-- One operation on the virtual-keyboard / haptic sink. -/
inductive SinkOp where
  | write (code : Nat) (value : Int)
  | hapticPlay
  | syn
deriving DecidableEq

/-- The raw `self.drv.play()` call: pulses, or raises the given error. -/
def drv_play (outcome : Except String Unit) : Except String (List SinkOp) :=
  match outcome with
  | .ok _ => .ok [SinkOp.hapticPlay]
  | .error e => .error e

/-- `trigger_haptic`: `try: self.drv.play() except Exception as e: print(...)`.
Returns the sink operations performed and the log lines printed. -/
def trigger_haptic (outcome : Except String Unit) : List SinkOp × List String :=
  match drv_play outcome with
  | .ok ops => (ops, [])
  | .error e => ([], ["Haptic error: " ++ e])

/-- `emit_key(key_code, value, ...)` at sink granularity: write every code of
the list, trigger the haptic on a press, then `syn()`. -/
def emit_key_sink (outcome : Except String Unit) (key_code : List Nat)
    (value : Int) : Except String (List SinkOp × List String) := do
  let writes := key_code.map (fun k => SinkOp.write k value)
  let hap := if value = 1 then trigger_haptic outcome else ([], [])
  return (writes ++ hap.1 ++ [SinkOp.syn], hap.2)

/-- Strict interior of a region's rectangle. -/
def strictlyInside (r : Region) (x y : Int) : Prop :=
  r.x1 < x ∧ x < r.x2 ∧ r.y1 < y ∧ y < r.y2

/-- Separation of two rectangles strong enough that the open interior of
either misses the closed extent of the other. -/
def rectSeparated (r s : Region) : Prop :=
  r.x2 ≤ s.x1 ∨ s.x2 ≤ r.x1 ∨ r.y2 ≤ s.y1 ∨ s.y2 ≤ r.y1

instance (r : Region) (x y : Int) : Decidable (strictlyInside r x y) := by
  unfold strictlyInside
  infer_instance

instance (r s : Region) : Decidable (rectSeparated r s) := by
  unfold rectSeparated
  infer_instance

/-- The `region_name` strings used for swipe emissions. -/
def swipeNames : List String :=
  ["Swipe right", "Swipe left", "Swipe down", "Swipe up"]

/-- Recognizer of a swipe press emission. -/
def isSwipePress (e : KeyEmit) : Bool :=
  swipeNames.contains e.name && e.value == 1

/-- Events that `run()` routes to `process_touch_position` or drops, i.e.
everything except slot selection and tracking-id lifecycle: processing such
an event can never change which slot is current or start/end a contact. -/
def IsPositionEvent : TEvent → Prop
  | .posX _ => True
  | .posY _ => True
  | .touchMajor _ => True
  | _ => False

/-- Events local to the current slot (no `ABS_MT_SLOT` reselection): position
and size packets plus tracking-id packets. -/
def IsSlotLocal : TEvent → Prop
  | .absSlot _ => False
  | _ => True

instance (e : TEvent) : Decidable (IsPositionEvent e) := by
  cases e <;> simp [IsPositionEvent] <;> infer_instance

instance (e : TEvent) : Decidable (IsSlotLocal e) := by
  cases e <;> simp [IsSlotLocal] <;> infer_instance

/-! ## Theorems -/

/-! ### Helper lemmas about the catalog and emission counting -/

lemma regionNames_nodup : regionNames.Nodup := by decide

lemma pressCount_append (l1 l2 : List KeyEmit) (n : String) :
    pressCount (l1 ++ l2) n = pressCount l1 n + pressCount l2 n := by
  simp [pressCount, List.filter_append]

lemma releaseCount_append (l1 l2 : List KeyEmit) (n : String) :
    releaseCount (l1 ++ l2) n = releaseCount l1 n + releaseCount l2 n := by
  simp [releaseCount, List.filter_append]

/-- Counting catalog entries whose name satisfies a name-level predicate and
equals `n`: with duplicate-free names, it is 1 when `n` is a listed name
satisfying the predicate, else 0. -/
lemma length_filter_namePred (l : List Region) (q : String → Bool) (n : String)
    (h : (l.map Region.name).Nodup) :
    (l.filter (fun r => q r.name && r.name == n)).length
      = if n ∈ l.map Region.name ∧ q n = true then 1 else 0 := by
  induction l with
  | nil => simp
  | cons r tl ih =>
    simp only [List.map_cons, List.nodup_cons] at h
    rw [List.filter_cons]
    by_cases hrn : r.name = n
    · subst hrn
      have htl : (List.filter (fun x => q x.name && x.name == r.name) tl).length = 0 := by
        rw [ih h.2]
        simp [h.1]
      by_cases hq : q r.name = true
      · simp [hq, htl]
      · simp [hq, htl]
    · have hnr : ¬ n = r.name := fun hh => hrn hh.symm
      have hb : (r.name == n) = false := by
        simp [hrn]
      simp only [hb, Bool.and_false, Bool.false_eq_true, if_false]
      rw [ih h.2]
      simp [List.map_cons, List.mem_cons, hnr]

lemma releaseName_pressCount (b n : String) (t : ℚ) :
    pressCount (releaseName b t) n = 0 := by
  simp [pressCount, releaseName, List.filter_map, Function.comp]

lemma releaseName_releaseCount (b n : String) (t : ℚ) :
    releaseCount (releaseName b t) n
      = if n = b ∧ b ∈ regionNames then 1 else 0 := by
  simp only [releaseName, releaseCount, List.filter_map, List.length_map]
  have hcomp : ((fun e : KeyEmit => e.name == n && e.value == 0) ∘
      (fun r : Region => KeyEmit.mk r.key 0 r.name t))
      = fun r : Region => (r.name == n) := by
    funext r; simp
  rw [hcomp, List.filter_filter]
  have hq := length_filter_namePred touch_regions (fun s => s == n) b regionNames_nodup
  have hpred : (fun a : Region => a.name == n && a.name == b)
       = (fun r : Region => (fun s => s == n) r.name && r.name == b) := rfl
  rw [hpred, hq]
  by_cases hnb : n = b
  · subst hnb
    by_cases hmem : n ∈ regionNames <;> simp [hmem, regionNames]
  · have hbn : ¬ b = n := fun hh => hnb hh.symm
    simp [hnb, hbn]

lemma comboPartner_LOAD (ts : Int) : comboPartner region_LOAD ts = [] := by
  simp [comboPartner, region_LOAD]

lemma comboPartner_START (ts : Int) : comboPartner region_START ts = [] := by
  simp [comboPartner, region_START]

lemma comboPartner_SELECT (ts : Int) : comboPartner region_SELECT ts = [] := by
  simp [comboPartner, region_SELECT]

lemma comboPartner_RIGHT (ts : Int) : comboPartner region_RIGHT ts = [] := by
  simp [comboPartner, region_RIGHT]

lemma comboPartner_UP (ts : Int) : comboPartner region_UP ts = [] := by
  simp [comboPartner, region_UP]

lemma comboPartner_LEFT (ts : Int) : comboPartner region_LEFT ts = [] := by
  simp [comboPartner, region_LEFT]

lemma comboPartner_DOWN (ts : Int) : comboPartner region_DOWN ts = [] := by
  simp [comboPartner, region_DOWN]

lemma comboPartner_SAVE (ts : Int) : comboPartner region_SAVE ts = [] := by
  simp [comboPartner, region_SAVE]

lemma comboPartner_EXIT (ts : Int) : comboPartner region_EXIT ts = [] := by
  simp [comboPartner, region_EXIT]

lemma comboPartner_A (ts : Int) :
    comboPartner region_A ts
      = if TOUCH_SIZE_THRESHOLD ≤ ts then [region_B] else [] := by
  by_cases h : TOUCH_SIZE_THRESHOLD ≤ ts <;>
    simp [comboPartner, h, touch_regions, region_LOAD, region_A, region_B,
      List.find?]

lemma comboPartner_B (ts : Int) :
    comboPartner region_B ts
      = if TOUCH_SIZE_THRESHOLD ≤ ts then [region_A] else [] := by
  by_cases h : TOUCH_SIZE_THRESHOLD ≤ ts <;>
    simp [comboPartner, h, touch_regions, region_LOAD, region_A, region_B,
      List.find?]

/-- Unrolled form of the base scan over the literal catalog. -/
lemma baseScan_eq (x y ts : Int) :
    baseScan x y ts =
      (if containsPt region_LOAD x y = true then [region_LOAD] else []) ++
      (if containsPt region_A x y = true then
        region_A :: (if TOUCH_SIZE_THRESHOLD ≤ ts then [region_B] else [])
       else []) ++
      (if containsPt region_B x y = true then
        region_B :: (if TOUCH_SIZE_THRESHOLD ≤ ts then [region_A] else [])
       else []) ++
      (if containsPt region_START x y = true then [region_START] else []) ++
      (if containsPt region_SELECT x y = true then [region_SELECT] else []) ++
      (if containsPt region_RIGHT x y = true then [region_RIGHT] else []) ++
      (if containsPt region_UP x y = true then [region_UP] else []) ++
      (if containsPt region_LEFT x y = true then [region_LEFT] else []) ++
      (if containsPt region_DOWN x y = true then [region_DOWN] else []) ++
      (if containsPt region_SAVE x y = true then [region_SAVE] else []) ++
      (if containsPt region_EXIT x y = true then [region_EXIT] else []) := by
  simp only [baseScan, touch_regions, List.flatMap_cons, List.flatMap_nil,
    List.append_nil, comboPartner_LOAD, comboPartner_A, comboPartner_B,
    comboPartner_START, comboPartner_SELECT, comboPartner_RIGHT,
    comboPartner_UP, comboPartner_LEFT, comboPartner_DOWN, comboPartner_SAVE,
    comboPartner_EXIT, List.append_assoc]

lemma AB_not_both (x y : Int) :
    ¬(containsPt region_A x y = true ∧ containsPt region_B x y = true) := by
  simp only [containsPt, region_A, region_B, Bool.and_eq_true,
    decide_eq_true_eq]
  omega

lemma opt_single_sublist (c : Prop) [Decidable c] (r : Region) :
    List.Sublist (if c then [r] else []) [r] := by
  split_ifs
  · exact List.Sublist.refl _
  · exact List.nil_sublist _

lemma baseScan_names_nodup (x y ts : Int) :
    ((baseScan x y ts).map Region.name).Nodup := by
  rw [baseScan_eq]
  simp only [List.append_assoc]
  by_cases hA : containsPt region_A x y = true
  · have hB : ¬ containsPt region_B x y = true := fun hB => AB_not_both x y ⟨hA, hB⟩
    have h1 : List.Sublist
        (if containsPt region_A x y = true then
          region_A :: (if TOUCH_SIZE_THRESHOLD ≤ ts then [region_B] else [])
         else []) [region_A, region_B] := by
      rw [if_pos hA]
      exact List.Sublist.cons₂ _ (opt_single_sublist _ _)
    have h2 : List.Sublist
        (if containsPt region_B x y = true then
          region_B :: (if TOUCH_SIZE_THRESHOLD ≤ ts then [region_A] else [])
         else []) ([] : List Region) := by
      rw [if_neg hB]
    have hall := List.Sublist.append (opt_single_sublist (containsPt region_LOAD x y = true) region_LOAD)
      (List.Sublist.append h1 (List.Sublist.append h2
        (List.Sublist.append (opt_single_sublist (containsPt region_START x y = true) region_START)
          (List.Sublist.append (opt_single_sublist (containsPt region_SELECT x y = true) region_SELECT)
            (List.Sublist.append (opt_single_sublist (containsPt region_RIGHT x y = true) region_RIGHT)
              (List.Sublist.append (opt_single_sublist (containsPt region_UP x y = true) region_UP)
                (List.Sublist.append (opt_single_sublist (containsPt region_LEFT x y = true) region_LEFT)
                  (List.Sublist.append (opt_single_sublist (containsPt region_DOWN x y = true) region_DOWN)
                    (List.Sublist.append (opt_single_sublist (containsPt region_SAVE x y = true) region_SAVE)
                      (opt_single_sublist (containsPt region_EXIT x y = true) region_EXIT))))))))))
    exact List.Nodup.sublist (hall.map Region.name) (by decide)
  · have h1 : List.Sublist
        (if containsPt region_A x y = true then
          region_A :: (if TOUCH_SIZE_THRESHOLD ≤ ts then [region_B] else [])
         else []) ([] : List Region) := by
      rw [if_neg hA]
    have h2 : List.Sublist
        (if containsPt region_B x y = true then
          region_B :: (if TOUCH_SIZE_THRESHOLD ≤ ts then [region_A] else [])
         else []) [region_B, region_A] := by
      by_cases hB : containsPt region_B x y = true
      · rw [if_pos hB]
        exact List.Sublist.cons₂ _ (opt_single_sublist _ _)
      · rw [if_neg hB]
        exact List.nil_sublist _
    have hall := List.Sublist.append (opt_single_sublist (containsPt region_LOAD x y = true) region_LOAD)
      (List.Sublist.append h1 (List.Sublist.append h2
        (List.Sublist.append (opt_single_sublist (containsPt region_START x y = true) region_START)
          (List.Sublist.append (opt_single_sublist (containsPt region_SELECT x y = true) region_SELECT)
            (List.Sublist.append (opt_single_sublist (containsPt region_RIGHT x y = true) region_RIGHT)
              (List.Sublist.append (opt_single_sublist (containsPt region_UP x y = true) region_UP)
                (List.Sublist.append (opt_single_sublist (containsPt region_LEFT x y = true) region_LEFT)
                  (List.Sublist.append (opt_single_sublist (containsPt region_DOWN x y = true) region_DOWN)
                    (List.Sublist.append (opt_single_sublist (containsPt region_SAVE x y = true) region_SAVE)
                      (opt_single_sublist (containsPt region_EXIT x y = true) region_EXIT))))))))))
    exact List.Nodup.sublist (hall.map Region.name) (by decide)

lemma find_B_toList :
    (touch_regions.find? (fun r => r.name == "B BTN")).toList = [region_B] := by
  rfl

lemma find_RIGHT_toList :
    (touch_regions.find? (fun r => r.name == "RIGHT")).toList = [region_RIGHT] := by
  rfl

lemma nodup_names_append_single (l : List Region) (r : Region)
    (h : (l.map Region.name).Nodup) (hr : r.name ∉ l.map Region.name) :
    ((l ++ [r]).map Region.name).Nodup := by
  rw [List.map_append]
  rw [List.nodup_append]
  refine ⟨h, List.nodup_singleton _, ?_⟩
  intro a ha hb
  simp only [List.map_cons, List.map_nil, List.mem_singleton] at hb
  exact hr (hb ▸ ha)

lemma not_any_name (l : List Region) (s : String)
    (h : ¬ l.any (fun r => r.name == s) = true) : s ∉ l.map Region.name := by
  intro hmem
  rcases List.mem_map.1 hmem with ⟨r, hr, rfl⟩
  exact h (List.any_eq_true.2 ⟨r, hr, by simp⟩)

lemma check_names_nodup (x y ts : Int) :
    ((check_touch_regions x y ts).map Region.name).Nodup := by
  have hbase := baseScan_names_nodup x y ts
  simp only [check_touch_regions]
  split_ifs
  · exact hbase
  · rw [find_B_toList]
    exact nodup_names_append_single _ _ hbase (not_any_name _ _ (by assumption))
  · rw [find_RIGHT_toList]
    exact nodup_names_append_single _ _ hbase (not_any_name _ _ (by assumption))
  · rw [find_B_toList, find_RIGHT_toList]
    apply nodup_names_append_single
    · exact nodup_names_append_single _ _ hbase (not_any_name _ _ (by assumption))
    · rw [List.map_append]
      intro hmem
      rcases List.mem_append.1 hmem with h | h
      · exact not_any_name _ _ (by assumption) h
      · simp [region_B, region_RIGHT] at h
  · exact hbase

lemma comboPartner_subset (r0 : Region) (ts : Int) :
    ∀ r ∈ comboPartner r0 ts, r ∈ touch_regions := by
  intro r h
  unfold comboPartner at h
  by_cases hcond : (decide (ts ≥ TOUCH_SIZE_THRESHOLD)
      && (r0.name == "A BTN" || r0.name == "B BTN")) = true
  · rw [if_pos hcond] at h
    cases hf : touch_regions.find? (fun r2 =>
        r2.name == (if r0.name == "A BTN" then "B BTN" else "A BTN")) with
    | none =>
      rw [hf] at h
      simp at h
    | some r1 =>
      rw [hf] at h
      simp only [Option.toList_some, List.mem_singleton] at h
      exact h ▸ List.mem_of_find?_eq_some hf
  · rw [if_neg hcond] at h
    simp at h

lemma baseScan_subset (x y ts : Int) :
    ∀ r ∈ baseScan x y ts, r ∈ touch_regions := by
  intro r hr
  rcases List.mem_flatMap.1 hr with ⟨r0, hr0, hin⟩
  by_cases hc : containsPt r0 x y = true
  · rw [if_pos hc] at hin
    rcases List.mem_cons.1 hin with h | h
    · exact h ▸ hr0
    · exact comboPartner_subset r0 ts r h
  · rw [if_neg hc] at hin
    simp at hin

lemma check_subset (x y ts : Int) :
    ∀ r ∈ check_touch_regions x y ts, r ∈ touch_regions := by
  have hBm : region_B ∈ touch_regions := by simp [touch_regions]
  have hRm : region_RIGHT ∈ touch_regions := by simp [touch_regions]
  intro r hr
  simp only [check_touch_regions, find_B_toList, find_RIGHT_toList] at hr
  split_ifs at hr
  · exact baseScan_subset x y ts r hr
  · rcases List.mem_append.1 hr with h | h
    · exact baseScan_subset x y ts r h
    · rw [List.mem_singleton.1 h]
      exact hBm
  · rcases List.mem_append.1 hr with h | h
    · exact baseScan_subset x y ts r h
    · rw [List.mem_singleton.1 h]
      exact hRm
  · rcases List.mem_append.1 hr with h | h
    · rcases List.mem_append.1 h with h2 | h2
      · exact baseScan_subset x y ts r h2
      · rw [List.mem_singleton.1 h2]
        exact hBm
    · rw [List.mem_singleton.1 h]
      exact hRm
  · exact baseScan_subset x y ts r hr

lemma flat_releases_pressCount (bs : List String) (t : ℚ) (n : String) :
    pressCount (bs.flatMap (fun b => releaseName b t)) n = 0 := by
  induction bs with
  | nil => simp [pressCount]
  | cons b tl ih =>
    rw [List.flatMap_cons, pressCount_append, releaseName_pressCount, ih]

lemma flat_releases_releaseCount (bs : List String) (t : ℚ) (n : String)
    (h : bs.Nodup) :
    releaseCount (bs.flatMap (fun b => releaseName b t)) n
      = if n ∈ bs ∧ n ∈ regionNames then 1 else 0 := by
  induction bs with
  | nil => simp [releaseCount]
  | cons b tl ih =>
    simp only [List.nodup_cons] at h
    rw [List.flatMap_cons, releaseCount_append, releaseName_releaseCount, ih h.2]
    by_cases hnb : n = b
    · subst hnb
      by_cases hrn : n ∈ regionNames <;> simp [hrn, h.1]
    · simp only [List.mem_cons]
      by_cases hm : n ∈ tl <;> simp [hnb, hm]

lemma mem_foldl_addName (rs : List Region) (acc : List String) (n : String) :
    n ∈ rs.foldl (fun acc r => addName acc r.name) acc
      ↔ n ∈ acc ∨ n ∈ rs.map Region.name := by
  induction rs generalizing acc with
  | nil => simp
  | cons r tl ih =>
    rw [List.foldl_cons, ih]
    by_cases h : r.name ∈ acc
    · simp only [addName, if_pos h, List.map_cons, List.mem_cons]
      constructor
      · rintro (h1 | h1)
        · exact Or.inl h1
        · exact Or.inr (Or.inr h1)
      · rintro (h1 | h1 | h1)
        · exact Or.inl h1
        · exact Or.inl (h1 ▸ h)
        · exact Or.inr h1
    · simp only [addName, if_neg h, List.map_cons, List.mem_cons, List.mem_append,
        List.mem_singleton]
      tauto

lemma nodup_foldl_addName (rs : List Region) (acc : List String)
    (h : acc.Nodup) :
    (rs.foldl (fun acc r => addName acc r.name) acc).Nodup := by
  induction rs generalizing acc with
  | nil => exact h
  | cons r tl ih =>
    rw [List.foldl_cons]
    apply ih
    by_cases hm : r.name ∈ acc
    · simpa [addName, if_pos hm] using h
    · simp only [addName, if_neg hm]
      simpa [List.nodup_append] using ⟨h, hm⟩

lemma presses_pressCount (rs : List Region) (old : List String) (t : ℚ)
    (n : String) (h : (rs.map Region.name).Nodup) :
    pressCount ((rs.filter (fun r => r.name ∉ old)).map
        (fun r => KeyEmit.mk r.key 1 r.name t)) n
      = if n ∈ rs.map Region.name ∧ n ∉ old then 1 else 0 := by
  simp only [pressCount, List.filter_map]
  have hcomp : ((fun e : KeyEmit => e.name == n && e.value == 1) ∘
      (fun r : Region => KeyEmit.mk r.key 1 r.name t))
      = fun r : Region => (r.name == n) := by
    funext r; simp
  rw [hcomp, List.length_map, List.filter_filter]
  have hsw : (fun a : Region => a.name == n && decide (a.name ∉ old))
      = (fun a : Region => (fun s => decide (s ∉ old)) a.name && a.name == n) := by
    funext a; exact Bool.and_comm _ _
  rw [hsw, length_filter_namePred rs (fun s => decide (s ∉ old)) n h]
  by_cases hm : n ∈ rs.map Region.name <;> by_cases ho : n ∈ old <;>
    simp [hm, ho]

lemma presses_releaseCount (rs : List Region) (old : List String) (t : ℚ)
    (n : String) :
    releaseCount ((rs.filter (fun r => r.name ∉ old)).map
        (fun r => KeyEmit.mk r.key 1 r.name t)) n = 0 := by
  simp [releaseCount, List.filter_map, Function.comp]

lemma uab_mem_result (slot : Slot) (rs : List Region) (t : ℚ) (n : String) :
    n ∈ (update_active_buttons slot rs t).1 ↔ n ∈ rs.map Region.name := by
  unfold update_active_buttons
  simpa using mem_foldl_addName rs [] n

lemma uab_result_nodup (slot : Slot) (rs : List Region) (t : ℚ) :
    (update_active_buttons slot rs t).1.Nodup := by
  unfold update_active_buttons
  exact nodup_foldl_addName rs [] (by simp)

lemma uab_pressCount (slot : Slot) (rs : List Region) (t : ℚ) (n : String)
    (hrs : (rs.map Region.name).Nodup) :
    pressCount (update_active_buttons slot rs t).2 n
      = if n ∈ rs.map Region.name ∧ n ∉ slot.active_buttons.getD [] then 1 else 0 := by
  unfold update_active_buttons
  simp only
  rw [pressCount_append, pressCount_append, flat_releases_pressCount,
    flat_releases_pressCount, presses_pressCount rs _ t n hrs]
  omega

lemma uab_releaseCount (slot : Slot) (rs : List Region) (t : ℚ) (n : String)
    (hold : (slot.active_buttons.getD []).Nodup)
    (hsub : ∀ x ∈ slot.active_buttons.getD [], x ∈ regionNames) :
    releaseCount (update_active_buttons slot rs t).2 n
      = if n ∈ slot.active_buttons.getD [] ∧ n ∉ rs.map Region.name
        then 1 else 0 := by
  unfold update_active_buttons
  simp only
  rw [releaseCount_append, releaseCount_append, presses_releaseCount,
    flat_releases_releaseCount _ t n (List.Nodup.filter _ (List.Nodup.filter _ hold)),
    flat_releases_releaseCount _ t n (List.Nodup.filter _ (List.Nodup.filter _ hold))]
  have hns := hsub n
  have hcur : ∀ x : String,
      x ∈ rs.foldl (fun acc r => addName acc r.name) [] ↔ x ∈ rs.map Region.name := by
    intro x; simpa using mem_foldl_addName rs [] x
  simp only [List.mem_filter, decide_eq_true_eq, hcur]
  by_cases ho : n ∈ slot.active_buttons.getD []
  · have hrn : n ∈ regionNames := hns ho
    by_cases hm : n ∈ rs.map Region.name <;> by_cases hd : n ∈ directional_keys <;>
      simp [ho, hm, hd, hrn]
  · by_cases hm : n ∈ rs.map Region.name <;> by_cases hd : n ∈ directional_keys <;>
      simp [ho, hm, hd]

lemma comboPartner_small (r : Region) (ts : Int) (h : ts < TOUCH_SIZE_THRESHOLD) :
    comboPartner r ts = [] := by
  unfold comboPartner
  have hd : decide (ts ≥ TOUCH_SIZE_THRESHOLD) = false :=
    decide_eq_false (not_le.2 h)
  rw [hd]
  simp

lemma flatMap_eq_nil_of_all {α β : Type} (l : List α) (g : α → List β)
    (h : ∀ x ∈ l, g x = []) : l.flatMap g = [] := by
  induction l with
  | nil => rfl
  | cons hd tl ih =>
    rw [List.flatMap_cons, h hd (List.mem_cons_self _ _), List.nil_append]
    exact ih (fun x hx => h x (List.mem_cons_of_mem _ hx))

lemma flatMap_eq_single {α β : Type} (l : List α) (g : α → List β)
    (a : α) (b : β) (hnd : l.Nodup) (hmem : a ∈ l) (hga : g a = [b])
    (hother : ∀ x ∈ l, x ≠ a → g x = []) : l.flatMap g = [b] := by
  induction l with
  | nil => cases hmem
  | cons hd tl ih =>
    rw [List.flatMap_cons]
    rcases List.mem_cons.1 hmem with rfl | hmem2
    · rw [hga]
      have htl : tl.flatMap g = [] :=
        flatMap_eq_nil_of_all tl g (fun x hx => hother x (List.mem_cons_of_mem _ hx)
          (fun he => (List.nodup_cons.1 hnd).1 (he ▸ hx)))
      rw [htl, List.append_nil]
    · have hne : hd ≠ a := fun he => (List.nodup_cons.1 hnd).1 (he ▸ hmem2)
      rw [hother hd (List.mem_cons_self _ _) hne, List.nil_append]
      exact ih (List.nodup_cons.1 hnd).2 hmem2
        (fun x hx hxa => hother x (List.mem_cons_of_mem _ hx) hxa)

lemma touch_regions_pairwise_sep : touch_regions.Pairwise rectSeparated := by
  decide

lemma rectSeparated_symm : ∀ {r s : Region}, rectSeparated r s → rectSeparated s r := by
  intro r s h
  unfold rectSeparated at h ⊢
  tauto

lemma not_contains_of_sep (r s : Region) (x y : Int) (hsep : rectSeparated r s)
    (hin : strictlyInside r x y) : containsPt s x y = false := by
  apply Bool.eq_false_iff.2
  intro hc
  simp only [containsPt, Bool.and_eq_true, decide_eq_true_eq] at hc
  unfold strictlyInside at hin
  unfold rectSeparated at hsep
  rcases hsep with h | h | h | h <;> omega

lemma check_names_sub (x y ts : Int) :
    ∀ n ∈ (check_touch_regions x y ts).map Region.name, n ∈ regionNames := by
  intro n hn
  rcases List.mem_map.1 hn with ⟨r, hr, rfl⟩
  exact List.mem_map_of_mem _ (check_subset x y ts r hr)

lemma releaseName_mem_names (b : String) (t : ℚ) :
    ∀ e ∈ releaseName b t, e.name ∈ regionNames := by
  intro e he
  simp only [releaseName, List.mem_map] at he
  rcases he with ⟨r, hr, rfl⟩
  exact List.mem_map_of_mem _ (List.mem_filter.1 hr).1

lemma flat_releases_filter_nonname (bs : List String) (t : ℚ) (q : String)
    (hq : q ∉ regionNames) :
    (bs.flatMap (fun b => releaseName b t)).filter (fun e => e.name == q) = [] := by
  rw [List.filter_eq_nil_iff]
  intro e he
  rcases List.mem_flatMap.1 he with ⟨b, hb, heb⟩
  have hmem := releaseName_mem_names b t e heb
  simp only [beq_iff_eq]
  intro hcontra
  exact hq (hcontra ▸ hmem)

lemma store_position_fields (s : Slot) (c : PosCode) (v : Int) :
    (store_position s c v).button_pressed = s.button_pressed ∧
    (store_position s c v).last_swipe_time = s.last_swipe_time ∧
    (store_position s c v).active_buttons = s.active_buttons ∧
    (store_position s c v).in_viewport = s.in_viewport ∧
    (store_position s c v).swipe_detected = s.swipe_detected := by
  cases c <;> exact ⟨rfl, rfl, rfl, rfl, rfl⟩

lemma flat_releases_filter_swipe (bs : List String) (t : ℚ) :
    (bs.flatMap (fun b => releaseName b t)).filter
      (fun e => swipeNames.contains e.name) = [] := by
  rw [List.filter_eq_nil_iff]
  intro e he
  rcases List.mem_flatMap.1 he with ⟨b, hb, heb⟩
  have hmem := releaseName_mem_names b t e heb
  have hnot : ∀ q ∈ regionNames, q ∉ swipeNames := by decide
  simp [hnot e.name hmem]

lemma can_trigger_swipe_setSlot (m : Mapper) (now : ℚ) (cs : Int) (s : Slot)
    (h1 : cs ∉ m.active_gestures)
    (h2 : s.button_pressed.getD false = false)
    (h3 : now - s.last_swipe_time.getD 0 > SWIPE_COOLDOWN) :
    can_trigger_swipe (setSlot m cs s) now cs = true := by
  simp [can_trigger_swipe, setSlot, h1, h2, h3]

/-- Swipe behavior of the viewport branch when the guard conditions hold:
the swipe-named emissions are exactly the press/release pair dictated by the
horizontal-first threshold decision on (dx, dy) = (x - start_x, y - start_y),
and on a firing the slot's origin is rebased to the current point,
`last_swipe_time` is stamped with the current time and `swipe_detected` is
latched; with no firing, `last_swipe_time` and `swipe_detected` are kept. -/
lemma viewport_branch_swipe (m : Mapper) (cs : Int) (slot1 : Slot) (now : ℚ)
    (xv yv sx sy : Int)
    (hx1 : slot1.x = some xv) (hy1 : slot1.y = some yv)
    (hsx : slot1.start_x = some sx) (hsy : slot1.start_y = some sy)
    (hg1 : cs ∉ m.active_gestures)
    (hg2 : slot1.button_pressed.getD false = false)
    (hg3 : now - slot1.last_swipe_time.getD 0 > SWIPE_COOLDOWN) :
    ((viewport_branch m cs slot1 now xv yv).2.filter
        (fun e => swipeNames.contains e.name)
      = if |xv - sx| > SWIPE_MIN_DISTANCE ∧ |yv - sy| < SWIPE_MAX_OFF_AXIS then
          (if xv - sx > 0 then
            [⟨[KEY_RIGHT], 1, "Swipe right", now⟩,
             ⟨[KEY_RIGHT], 0, "Swipe right", now⟩]
          else
            [⟨[KEY_LEFT], 1, "Swipe left", now⟩,
             ⟨[KEY_LEFT], 0, "Swipe left", now⟩])
        else if |yv - sy| > SWIPE_MIN_VERTICAL ∧ |xv - sx| < SWIPE_MAX_OFF_AXIS then
          (if yv - sy > 0 then
            [⟨[KEY_DOWN], 1, "Swipe down", now⟩,
             ⟨[KEY_DOWN], 0, "Swipe down", now⟩]
          else
            [⟨[KEY_UP], 1, "Swipe up", now⟩,
             ⟨[KEY_UP], 0, "Swipe up", now⟩])
        else []) ∧
    ((|xv - sx| > SWIPE_MIN_DISTANCE ∧ |yv - sy| < SWIPE_MAX_OFF_AXIS) ∨
      (|yv - sy| > SWIPE_MIN_VERTICAL ∧ |xv - sx| < SWIPE_MAX_OFF_AXIS) →
      ((viewport_branch m cs slot1 now xv yv).1.touch_slots cs).last_swipe_time
          = some now ∧
      ((viewport_branch m cs slot1 now xv yv).1.touch_slots cs).start_x = some xv ∧
      ((viewport_branch m cs slot1 now xv yv).1.touch_slots cs).start_y = some yv ∧
      ((viewport_branch m cs slot1 now xv yv).1.touch_slots cs).swipe_detected
          = some true) ∧
    (¬((|xv - sx| > SWIPE_MIN_DISTANCE ∧ |yv - sy| < SWIPE_MAX_OFF_AXIS) ∨
       (|yv - sy| > SWIPE_MIN_VERTICAL ∧ |xv - sx| < SWIPE_MAX_OFF_AXIS)) →
      ((viewport_branch m cs slot1 now xv yv).1.touch_slots cs).last_swipe_time
          = slot1.last_swipe_time ∧
      ((viewport_branch m cs slot1 now xv yv).1.touch_slots cs).swipe_detected
          = slot1.swipe_detected) := by
  have hcanA : can_trigger_swipe
      (setSlot m cs
        { slot1 with
          in_viewport := some true,
          active_buttons := some [] }) now cs = true :=
    can_trigger_swipe_setSlot m now cs _ hg1 hg2 hg3
  have hcanB : can_trigger_swipe
      (setSlot m cs { slot1 with in_viewport := some true }) now cs = true :=
    can_trigger_swipe_setSlot m now cs _ hg1 hg2 hg3
  unfold viewport_branch
  dsimp only
  by_cases hob : slot1.active_buttons.getD [] ≠ []
  · rw [if_pos hob, if_pos hob, hcanA]
    simp only [gesture_detect, ite_true, hsx, hsy, Option.getD_some]
    split_ifs
    all_goals rw [List.filter_append, flat_releases_filter_swipe, List.nil_append]
    all_goals simp_all [swipeNames, setSlot]
  · rw [if_neg hob, if_neg hob, hcanB]
    simp only [gesture_detect, ite_true, hsx, hsy, Option.getD_some]
    split_ifs
    all_goals simp_all [swipeNames, setSlot]

/-- C8 (counterexample): at touch-space point (200,560) with contact size 50
the hit test returns the empty list — neither the RIGHT region nor the B BTN
region is in the result, contrary to the claim. (200,560) lies outside every
scaled region rectangle and outside the RIGHT+B combo box, whose touch-space
extent is x ∈ [230,565], y ∈ [303,364]: the claimed point is a physical-space
point, not a touch-space one. -/
theorem right_b_combo_counterexample :
    check_touch_regions 200 560 50 = [] ∧
    "RIGHT" ∉ (check_touch_regions 200 560 50).map Region.name ∧
    "B BTN" ∉ (check_touch_regions 200 560 50).map Region.name := by
  decide

/-- C8 (amended): the touch-space image of physical (200,560) is
(333,336) = (int(200·X_SCALE), int(560·Y_SCALE)); that point with contact
size 50 (≥ TOUCH_SIZE_THRESHOLD = 40) lies in the RIGHT+B combo box, and the
hit test returns exactly the RIGHT region and the B BTN region, although the
raw point geometrically lies only in the RIGHT rectangle. -/
theorem right_b_combo_amended :
    (check_touch_regions 333 336 50).map Region.name = ["RIGHT", "B BTN"] ∧
    (touch_regions.filter (fun r => containsPt r 333 336)).map Region.name = ["RIGHT"] ∧
    in_right_b_box 333 336 = true ∧ (50 : Int) ≥ TOUCH_SIZE_THRESHOLD := by
  decide

/-- C9: a failure raised by `drv.play()` while pulsing is caught inside
`trigger_haptic` and logged, never propagated to the caller of `emit_key`
(the result is `.ok`, not `.error`), and the key writes and the `syn()`
flush still happen, in the same order as on the success path — the only
difference from a successful pulse is the absent haptic operation. -/
theorem haptic_failure_nonfatal (e : String) (key_code : List Nat) :
    emit_key_sink (Except.error e) key_code 1 =
      Except.ok (key_code.map (fun k => SinkOp.write k 1) ++ [SinkOp.syn],
                 ["Haptic error: " ++ e]) ∧
    emit_key_sink (Except.ok ()) key_code 1 =
      Except.ok (key_code.map (fun k => SinkOp.write k 1) ++
                 [SinkOp.hapticPlay, SinkOp.syn], []) := by
  constructor <;> simp [emit_key_sink, trigger_haptic, drv_play, pure, Except.pure]

/-- C2 (code bug): the `run()` dispatcher drops `ABS_MT_TOUCH_MAJOR` events
entirely — the mapper state is unchanged and nothing is emitted — even though
`process_touch_position`, had it been called as the claim describes, would
have stored the reported size in the slot's `touch_size`. -/
theorem touch_major_dropped (m : Mapper) (now : ℚ) (v : Int) :
    runStep m now (.touchMajor v) = (m, []) ∧
    ((process_touch_position m now .major v).1.touch_slots m.current_slot).touch_size
      = some v := by
  refine ⟨rfl, ?_⟩
  unfold process_touch_position
  cases hx : (m.touch_slots m.current_slot).x <;>
    cases hy : (m.touch_slots m.current_slot).y <;>
      simp [hx, hy, setSlot, store_position]
  split_ifs <;>
    all_goals (simp [setSlot, store_position, gesture_detect, viewport_branch]
      <;> split_ifs <;> simp [setSlot])

/-- C3: when a slot's tracking-id end is processed, the VIEWPORT-named
emissions are a press (of the viewport key) immediately followed by a release
exactly when the slot's `in_viewport` flag is set, `swipe_detected` is unset,
`button_pressed` is unset, and the elapsed time since `touch_start_time` is
strictly below `VIEWPORT_TAP_TIMEOUT`; in every other case there is no
VIEWPORT emission (the button releases that precede the tap all carry catalog
region names, never VIEWPORT). -/
theorem viewport_tap_iff (m : Mapper) (now : ℚ) :
    ((process_tracking_id m now (-1)).2).filter (fun e => e.name == "VIEWPORT")
      = if (m.touch_slots m.current_slot).in_viewport.getD false = true ∧
           (m.touch_slots m.current_slot).swipe_detected.getD false = false ∧
           (m.touch_slots m.current_slot).button_pressed.getD false = false ∧
           now - (m.touch_slots m.current_slot).touch_start_time.getD 0
             < VIEWPORT_TAP_TIMEOUT
        then [⟨viewport.key, 1, "VIEWPORT", now⟩, ⟨viewport.key, 0, "VIEWPORT", now⟩]
        else [] := by
  unfold process_tracking_id
  rw [if_pos rfl]
  simp only
  rw [List.filter_append,
    flat_releases_filter_nonname _ now "VIEWPORT" (by decide), List.nil_append]
  split_ifs with h
  · simp
  · simp

/-- C4: for a position update that lands in the viewport (hit test empty,
point inside the viewport rectangle) while the swipe guard holds, with
(dx, dy) = (x - start_x, y - start_y): the swipe emissions are a press
immediately followed by a release of KEY_RIGHT/KEY_LEFT when
|dx| > SWIPE_MIN_DISTANCE and |dy| < SWIPE_MAX_OFF_AXIS (sign of dx picking
the key), otherwise of KEY_DOWN/KEY_UP when |dy| > SWIPE_MIN_VERTICAL and
|dx| < SWIPE_MAX_OFF_AXIS (horizontal check first), otherwise none; on any
firing the origin is rebased to the current point, `last_swipe_time` is
stamped and `swipe_detected` is set, and with no firing `last_swipe_time`
and `swipe_detected` are unchanged. -/
theorem swipe_decision (m : Mapper) (now : ℚ) (code : PosCode) (v : Int)
    (xv yv sx sy : Int)
    (hx : (store_position (m.touch_slots m.current_slot) code v).x = some xv)
    (hy : (store_position (m.touch_slots m.current_slot) code v).y = some yv)
    (hsx : (store_position (m.touch_slots m.current_slot) code v).start_x = some sx)
    (hsy : (store_position (m.touch_slots m.current_slot) code v).start_y = some sy)
    (hempty : check_touch_regions xv yv
      ((store_position (m.touch_slots m.current_slot) code v).touch_size.getD 0) = [])
    (hvp : is_in_viewport xv yv = true)
    (hg1 : m.current_slot ∉ m.active_gestures)
    (hg2 : (m.touch_slots m.current_slot).button_pressed.getD false = false)
    (hg3 : now - (m.touch_slots m.current_slot).last_swipe_time.getD 0
      > SWIPE_COOLDOWN) :
    ((process_touch_position m now code v).2.filter
        (fun e => swipeNames.contains e.name)
      = if |xv - sx| > SWIPE_MIN_DISTANCE ∧ |yv - sy| < SWIPE_MAX_OFF_AXIS then
          (if xv - sx > 0 then
            [⟨[KEY_RIGHT], 1, "Swipe right", now⟩,
             ⟨[KEY_RIGHT], 0, "Swipe right", now⟩]
          else
            [⟨[KEY_LEFT], 1, "Swipe left", now⟩,
             ⟨[KEY_LEFT], 0, "Swipe left", now⟩])
        else if |yv - sy| > SWIPE_MIN_VERTICAL ∧ |xv - sx| < SWIPE_MAX_OFF_AXIS then
          (if yv - sy > 0 then
            [⟨[KEY_DOWN], 1, "Swipe down", now⟩,
             ⟨[KEY_DOWN], 0, "Swipe down", now⟩]
          else
            [⟨[KEY_UP], 1, "Swipe up", now⟩,
             ⟨[KEY_UP], 0, "Swipe up", now⟩])
        else []) ∧
    ((|xv - sx| > SWIPE_MIN_DISTANCE ∧ |yv - sy| < SWIPE_MAX_OFF_AXIS) ∨
      (|yv - sy| > SWIPE_MIN_VERTICAL ∧ |xv - sx| < SWIPE_MAX_OFF_AXIS) →
      (((process_touch_position m now code v).1.touch_slots
          m.current_slot).last_swipe_time = some now) ∧
      (((process_touch_position m now code v).1.touch_slots
          m.current_slot).start_x = some xv) ∧
      (((process_touch_position m now code v).1.touch_slots
          m.current_slot).start_y = some yv) ∧
      (((process_touch_position m now code v).1.touch_slots
          m.current_slot).swipe_detected = some true)) ∧
    (¬((|xv - sx| > SWIPE_MIN_DISTANCE ∧ |yv - sy| < SWIPE_MAX_OFF_AXIS) ∨
       (|yv - sy| > SWIPE_MIN_VERTICAL ∧ |xv - sx| < SWIPE_MAX_OFF_AXIS)) →
      (((process_touch_position m now code v).1.touch_slots
          m.current_slot).last_swipe_time = (m.touch_slots m.current_slot).last_swipe_time) ∧
      (((process_touch_position m now code v).1.touch_slots
          m.current_slot).swipe_detected
        = (m.touch_slots m.current_slot).swipe_detected)) := by
  have hred : process_touch_position m now code v
      = viewport_branch m m.current_slot
          (store_position (m.touch_slots m.current_slot) code v) now xv yv := by
    unfold process_touch_position
    simp only [hx, hy]
    rw [if_neg (fun hdc => hdc hempty), if_pos hvp]
  have hfields := store_position_fields (m.touch_slots m.current_slot) code v
  have hvb := viewport_branch_swipe m m.current_slot
    (store_position (m.touch_slots m.current_slot) code v) now xv yv sx sy
    hx hy hsx hsy hg1 (by rw [hfields.1]; exact hg2)
    (by rw [hfields.2.1]; exact hg3)
  rw [hred]
  refine ⟨hvb.1, hvb.2.1, fun hnf => ?_⟩
  have h3 := hvb.2.2 hnf
  exact ⟨by rw [h3.1, hfields.2.1], by rw [h3.2, hfields.2.2.2.2]⟩

/-- C4 (witness): a contact that started at viewport point (100,100) and
moves to x = 200 at time 1 fires a single right-swipe press/release pair,
rebases the origin to (200,100), stamps `last_swipe_time` and latches
`swipe_detected`. -/
theorem swipe_decision_witness :
    let m0 : Mapper :=
      { touch_slots := fun i => if i = 0 then
          { tracking_id := some 7, x := some 100, y := some 100,
            start_x := some 100, start_y := some 100, last_swipe_time := some 0,
            button_pressed := some false, touch_start_time := some 0,
            swipe_detected := some false, in_viewport := some true,
            active_buttons := some [], touch_size := some 0 } else {},
        current_slot := 0, active_gestures := [] }
    ((process_touch_position m0 1 PosCode.x 200).2.filter
        (fun e => swipeNames.contains e.name))
      = [⟨[KEY_RIGHT], 1, "Swipe right", 1⟩, ⟨[KEY_RIGHT], 0, "Swipe right", 1⟩] ∧
    ((process_touch_position m0 1 PosCode.x 200).1.touch_slots 0).last_swipe_time
      = some 1 ∧
    ((process_touch_position m0 1 PosCode.x 200).1.touch_slots 0).start_x = some 200 ∧
    ((process_touch_position m0 1 PosCode.x 200).1.touch_slots 0).start_y = some 100 ∧
    ((process_touch_position m0 1 PosCode.x 200).1.touch_slots 0).swipe_detected
      = some true := by
  intro m0
  have h := swipe_decision m0 1 PosCode.x 200 200 100 100 100
    (by decide) (by decide) (by decide) (by decide) (by decide) (by decide)
    (by decide) (by decide) (by norm_num [SWIPE_COOLDOWN])
  have hfire : (|(200 : Int) - 100| > SWIPE_MIN_DISTANCE ∧
      |(100 : Int) - 100| < SWIPE_MAX_OFF_AXIS) ∨
      (|(100 : Int) - 100| > SWIPE_MIN_VERTICAL ∧
      |(200 : Int) - 100| < SWIPE_MAX_OFF_AXIS) := Or.inl (by decide)
  refine ⟨?_, (h.2.1 hfire).1, (h.2.1 hfire).2.1, (h.2.1 hfire).2.2.1,
    (h.2.1 hfire).2.2.2⟩
  rw [h.1]
  norm_num [SWIPE_MIN_DISTANCE, SWIPE_MIN_VERTICAL, SWIPE_MAX_OFF_AXIS]

lemma process_touch_position_gestures (m : Mapper) (now : ℚ) (c : PosCode)
    (v : Int) :
    (process_touch_position m now c v).1.active_gestures = m.active_gestures := by
  unfold process_touch_position
  cases hx : (store_position (m.touch_slots m.current_slot) c v).x <;>
    cases hy : (store_position (m.touch_slots m.current_slot) c v).y <;>
      simp only [hx, hy] <;>
        first
          | rfl
          | (split_ifs <;> rfl)

lemma runStep_gestures (m : Mapper) (now : ℚ) (e : TEvent)
    (h0 : m.active_gestures = []) :
    (runStep m now e).1.active_gestures = [] := by
  cases e with
  | absSlot v => exact h0
  | trackingId v =>
    show (process_tracking_id m now v).1.active_gestures = []
    unfold process_tracking_id
    split_ifs <;> simp [setSlot, h0]
  | posX v => rw [show (runStep m now (.posX v)) =
      process_touch_position m now .x v from rfl,
      process_touch_position_gestures, h0]
  | posY v => rw [show (runStep m now (.posY v)) =
      process_touch_position m now .y v from rfl,
      process_touch_position_gestures, h0]
  | touchMajor v => exact h0

lemma setSlot_lookup (m : Mapper) (i : Int) (s : Slot) :
    (setSlot m i s).touch_slots i = s := by
  simp [setSlot]

lemma flat_releases_filter_press (bs : List String) (t : ℚ) :
    (bs.flatMap (fun b => releaseName b t)).filter isSwipePress = [] := by
  rw [List.filter_eq_nil_iff]
  intro e he
  rcases List.mem_flatMap.1 he with ⟨b, hb, heb⟩
  simp only [releaseName, List.mem_map] at heb
  rcases heb with ⟨r, hr, rfl⟩
  simp [isSwipePress]

lemma can_trigger_swipe_cooldown (m : Mapper) (now : ℚ) (cs : Int) (s : Slot)
    (h : can_trigger_swipe (setSlot m cs s) now cs = true) :
    now - s.last_swipe_time.getD 0 > SWIPE_COOLDOWN := by
  unfold can_trigger_swipe setSlot at h
  simp only [Bool.and_eq_true, decide_eq_true_eq] at h
  simpa using h.2

lemma gesture_detect_fire (can : Bool) (s : Slot) (now : ℚ) (xv yv : Int) :
    ((gesture_detect can s now xv yv).2.filter isSwipePress = [] ∧
     (gesture_detect can s now xv yv).1.last_swipe_time = s.last_swipe_time) ∨
    (can = true ∧ ∃ ke : KeyEmit,
     (gesture_detect can s now xv yv).2.filter isSwipePress = [ke] ∧
     ke.time = now ∧
     (gesture_detect can s now xv yv).1.last_swipe_time = some now) := by
  cases can with
  | false => left; exact ⟨rfl, rfl⟩
  | true =>
    unfold gesture_detect
    dsimp only
    split_ifs with h1 h2 h3 h4
    · right
      exact ⟨rfl, ⟨[KEY_RIGHT], 1, "Swipe right", now⟩,
        by simp [isSwipePress, swipeNames], rfl, rfl⟩
    · right
      exact ⟨rfl, ⟨[KEY_LEFT], 1, "Swipe left", now⟩,
        by simp [isSwipePress, swipeNames], rfl, rfl⟩
    · right
      exact ⟨rfl, ⟨[KEY_DOWN], 1, "Swipe down", now⟩,
        by simp [isSwipePress, swipeNames], rfl, rfl⟩
    · right
      exact ⟨rfl, ⟨[KEY_UP], 1, "Swipe up", now⟩,
        by simp [isSwipePress, swipeNames], rfl, rfl⟩
    · left
      exact ⟨rfl, rfl⟩
    · exact absurd rfl h1

lemma viewport_branch_fire (m : Mapper) (cs : Int) (slot1 : Slot) (now : ℚ)
    (xv yv : Int) :
    ((viewport_branch m cs slot1 now xv yv).2.filter isSwipePress = [] ∧
     ((viewport_branch m cs slot1 now xv yv).1.touch_slots cs).last_swipe_time
       = slot1.last_swipe_time) ∨
    (∃ ke : KeyEmit,
     (viewport_branch m cs slot1 now xv yv).2.filter isSwipePress = [ke] ∧
     ke.time = now ∧
     ((viewport_branch m cs slot1 now xv yv).1.touch_slots cs).last_swipe_time
       = some now ∧
     now - slot1.last_swipe_time.getD 0 > SWIPE_COOLDOWN) := by
  unfold viewport_branch
  dsimp only
  by_cases hob : slot1.active_buttons.getD [] ≠ []
  · rw [if_pos hob, if_pos hob]
    rcases gesture_detect_fire (can_trigger_swipe (setSlot m cs
        { slot1 with
          in_viewport := some true,
          active_buttons := some [] }) now cs)
        ({ slot1 with
          in_viewport := some true,
          active_buttons := some [] }) now xv yv with ⟨hf, hl⟩ | ⟨hcan, ke, hf, ht, hl⟩
    · left
      rw [List.filter_append, flat_releases_filter_press, List.nil_append, hf]
      exact ⟨rfl, by rw [setSlot_lookup, hl]⟩
    · right
      refine ⟨ke, ?_, ht, ?_, ?_⟩
      · rw [List.filter_append, flat_releases_filter_press, List.nil_append, hf]
      · rw [setSlot_lookup, hl]
      · have := can_trigger_swipe_cooldown m now cs _ hcan
        simpa using this
  · rw [if_neg hob, if_neg hob]
    rcases gesture_detect_fire (can_trigger_swipe (setSlot m cs
        { slot1 with in_viewport := some true }) now cs)
        ({ slot1 with in_viewport := some true }) now xv yv with ⟨hf, hl⟩ | ⟨hcan, ke, hf, ht, hl⟩
    · left
      rw [List.nil_append, hf]
      exact ⟨rfl, by rw [setSlot_lookup, hl]⟩
    · right
      refine ⟨ke, ?_, ht, ?_, ?_⟩
      · rw [List.nil_append, hf]
      · rw [setSlot_lookup, hl]
      · have := can_trigger_swipe_cooldown m now cs _ hcan
        simpa using this

lemma uab_filter_press (slot : Slot) (rs : List Region) (t : ℚ)
    (hsub : ∀ r ∈ rs, r ∈ touch_regions) :
    (update_active_buttons slot rs t).2.filter isSwipePress = [] := by
  rw [List.filter_eq_nil_iff]
  intro e he
  unfold update_active_buttons at he
  dsimp only at he
  rcases List.mem_append.1 he with he1 | he2
  · rcases List.mem_append.1 he1 with he3 | he4
    · rcases List.mem_flatMap.1 he3 with ⟨b, hb, heb⟩
      simp only [releaseName, List.mem_map] at heb
      rcases heb with ⟨r, hr, rfl⟩
      simp [isSwipePress]
    · rcases List.mem_map.1 he4 with ⟨r, hr, rfl⟩
      have hmem : r ∈ touch_regions := hsub r (List.mem_of_mem_filter hr)
      have hnm : r.name ∈ regionNames := List.mem_map_of_mem _ hmem
      have hnot : ∀ q ∈ regionNames, q ∉ swipeNames := by decide
      simp [isSwipePress, hnot r.name hnm]
  · rcases List.mem_flatMap.1 he2 with ⟨b, hb, heb⟩
    simp only [releaseName, List.mem_map] at heb
    rcases heb with ⟨r, hr, rfl⟩
    simp [isSwipePress]

/-- One slot-local position/size event emits either no swipe press (and
keeps `last_swipe_time`), or exactly one swipe press stamped with the event
time, `last_swipe_time` updated to it, after a cooldown check against the
previous value. -/
lemma posStep_swipe (m : Mapper) (t : ℚ) (e : TEvent)
    (he : IsPositionEvent e) :
    (runStep m t e).1.current_slot = m.current_slot ∧
    (((runStep m t e).2.filter isSwipePress = [] ∧
      ((runStep m t e).1.touch_slots m.current_slot).last_swipe_time
        = (m.touch_slots m.current_slot).last_swipe_time) ∨
     (∃ ke : KeyEmit, (runStep m t e).2.filter isSwipePress = [ke] ∧
      ke.time = t ∧
      ((runStep m t e).1.touch_slots m.current_slot).last_swipe_time = some t ∧
      t - (m.touch_slots m.current_slot).last_swipe_time.getD 0 > SWIPE_COOLDOWN)) := by
  have main : ∀ c v, (process_touch_position m t c v).1.current_slot = m.current_slot ∧
      (((process_touch_position m t c v).2.filter isSwipePress = [] ∧
        ((process_touch_position m t c v).1.touch_slots m.current_slot).last_swipe_time
          = (m.touch_slots m.current_slot).last_swipe_time) ∨
       (∃ ke : KeyEmit, (process_touch_position m t c v).2.filter isSwipePress = [ke] ∧
        ke.time = t ∧
        ((process_touch_position m t c v).1.touch_slots m.current_slot).last_swipe_time
          = some t ∧
        t - (m.touch_slots m.current_slot).last_swipe_time.getD 0 > SWIPE_COOLDOWN)) := by
    intro c v
    have hlst : (store_position (m.touch_slots m.current_slot) c v).last_swipe_time
        = (m.touch_slots m.current_slot).last_swipe_time :=
      (store_position_fields _ c v).2.1
    unfold process_touch_position
    cases hx : (store_position (m.touch_slots m.current_slot) c v).x with
    | none =>
      cases hy : (store_position (m.touch_slots m.current_slot) c v).y <;>
        simp only [hx, hy] <;>
          exact ⟨rfl, Or.inl ⟨rfl, by simp [setSlot, hlst]⟩⟩
    | some xv =>
      cases hy : (store_position (m.touch_slots m.current_slot) c v).y with
      | none =>
        simp only [hx, hy]
        exact ⟨rfl, Or.inl ⟨rfl, by simp [setSlot, hlst]⟩⟩
      | some yv =>
        simp only [hx, hy]
        split_ifs with h1 h2 h3
        · refine ⟨rfl, Or.inl ⟨?_, by simp [setSlot, hlst]⟩⟩
          exact uab_filter_press _ _ t (check_subset xv yv _)
        · rcases viewport_branch_fire m m.current_slot
            (store_position (m.touch_slots m.current_slot) c v) t xv yv with
            ⟨hf, hl⟩ | ⟨ke, hf, ht, hl, hcool⟩
          · exact ⟨rfl, Or.inl ⟨hf, by rw [hl, hlst]⟩⟩
          · exact ⟨rfl, Or.inr ⟨ke, hf, ht, hl, by rw [← hlst]; exact hcool⟩⟩
        · refine ⟨rfl, Or.inl ⟨?_, by simp [setSlot, hlst]⟩⟩
          exact flat_releases_filter_press _ t
        · exact ⟨rfl, Or.inl ⟨rfl, by simp [setSlot, hlst]⟩⟩
  cases e with
  | absSlot v => cases he
  | trackingId v => cases he
  | posX v => exact main .x v
  | posY v => exact main .y v
  | touchMajor v => exact ⟨rfl, Or.inl ⟨rfl, rfl⟩⟩

lemma swipe_chain_aux (evs : List (ℚ × TEvent)) (m : Mapper)
    (hev : ∀ te ∈ evs, IsPositionEvent te.2) :
    List.Chain' (fun a b : KeyEmit => b.time - a.time > SWIPE_COOLDOWN)
      ((runTrace m evs).2.filter isSwipePress) ∧
    (∀ ke0 : KeyEmit,
      ((runTrace m evs).2.filter isSwipePress).head? = some ke0 →
      ke0.time - (m.touch_slots m.current_slot).last_swipe_time.getD 0
        > SWIPE_COOLDOWN) := by
  induction evs generalizing m with
  | nil => exact ⟨List.chain'_nil, fun ke0 h => by cases h⟩
  | cons te evs ih =>
    rw [runTrace]
    dsimp only
    rw [List.filter_append]
    obtain ⟨hcs, hstep⟩ := posStep_swipe m te.1 te.2 (hev te (List.mem_cons_self _ _))
    have ihh := ih (runStep m te.1 te.2).1
      (fun te2 h2 => hev te2 (List.mem_cons_of_mem _ h2))
    rcases hstep with ⟨hf, hl⟩ | ⟨ke, hf, ht, hl, hcool⟩
    · rw [hf, List.nil_append]
      refine ⟨ihh.1, fun ke0 h0 => ?_⟩
      have hh := ihh.2 ke0 h0
      rw [hcs, hl] at hh
      exact hh
    · rw [hf, List.singleton_append]
      constructor
      · rw [List.chain'_cons']
        refine ⟨fun b hb => ?_, ihh.1⟩
        have hb2 := ihh.2 b hb
        rw [hcs, hl] at hb2
        simp only [Option.getD_some] at hb2
        rw [ht]
        exact hb2
      · intro ke0 h0
        rw [List.head?_cons, Option.some_inj] at h0
        rw [← h0, ht]
        exact hcool

/-- C5 (amended theorem): within a single contact — over any run of
position/size events for the current slot, with no intervening tracking-id
or slot-select event — consecutive swipe press emissions are separated by
strictly more than `SWIPE_COOLDOWN`: a swipe fires only when the event time
minus the slot's `last_swipe_time` exceeds `SWIPE_COOLDOWN`, and each firing
stamps `last_swipe_time` with its event time. -/
theorem swipe_cooldown_within_contact (evs : List (ℚ × TEvent)) (m0 : Mapper)
    (hev : ∀ te ∈ evs, IsPositionEvent te.2) :
    List.Chain' (fun a b : KeyEmit => b.time - a.time > SWIPE_COOLDOWN)
      ((runTrace m0 evs).2.filter isSwipePress) :=
  (swipe_chain_aux evs m0 hev).1

lemma gesture_detect_active (can : Bool) (s : Slot) (now : ℚ) (xv yv : Int) :
    (gesture_detect can s now xv yv).1.active_buttons = s.active_buttons := by
  cases can with
  | false => rfl
  | true =>
    unfold gesture_detect
    dsimp only
    split_ifs <;> rfl

lemma gesture_detect_names (can : Bool) (s : Slot) (now : ℚ) (xv yv : Int) :
    ∀ e ∈ (gesture_detect can s now xv yv).2, e.name ∈ swipeNames := by
  cases can with
  | false => intro e he; cases he
  | true =>
    unfold gesture_detect
    dsimp only
    split_ifs <;> intro e he <;> simp only [List.mem_cons, List.mem_singleton] at he <;>
      rcases he with rfl | rfl | he <;> simp [swipeNames] <;> cases he

lemma counts_zero_of_swipe_names (l : List KeyEmit)
    (h : ∀ e ∈ l, e.name ∈ swipeNames) (n : String) (hn : n ∈ regionNames) :
    pressCount l n = 0 ∧ releaseCount l n = 0 := by
  have hne : ∀ e ∈ l, (e.name == n) = false := by
    intro e he
    have h1 := h e he
    have hnot : ∀ q ∈ swipeNames, ∀ p ∈ regionNames, ¬q = p := by decide
    simp [hnot e.name h1 n hn]
  constructor
  · rw [pressCount, List.length_eq_zero, List.filter_eq_nil_iff]
    intro e he
    simp [hne e he]
  · rw [releaseCount, List.length_eq_zero, List.filter_eq_nil_iff]
    intro e he
    simp [hne e he]

/-- Emission counts and resulting active set of the viewport branch, for
catalog names: every previously active button is released exactly once, no
press is emitted, and the active set is empty afterwards. -/
lemma viewport_branch_balance (m : Mapper) (cs : Int) (slot1 : Slot) (now : ℚ)
    (xv yv : Int) (hnd : (slot1.active_buttons.getD []).Nodup) :
    ∀ n ∈ regionNames,
      pressCount (viewport_branch m cs slot1 now xv yv).2 n = 0 ∧
      releaseCount (viewport_branch m cs slot1 now xv yv).2 n
        = (if n ∈ slot1.active_buttons.getD [] then 1 else 0) ∧
      ((viewport_branch m cs slot1 now xv yv).1.touch_slots cs).active_buttons.getD []
        = [] := by
  intro n hn
  unfold viewport_branch
  dsimp only
  by_cases hob : slot1.active_buttons.getD [] ≠ []
  · rw [if_pos hob, if_pos hob]
    have hsw := gesture_detect_names (can_trigger_swipe (setSlot m cs
        { slot1 with
          in_viewport := some true,
          active_buttons := some [] }) now cs)
        ({ slot1 with
          in_viewport := some true,
          active_buttons := some [] }) now xv yv
    have hz := counts_zero_of_swipe_names _ hsw n hn
    refine ⟨?_, ?_, ?_⟩
    · rw [pressCount_append, flat_releases_pressCount, hz.1]
    · rw [releaseCount_append, hz.2,
        flat_releases_releaseCount _ now n hnd]
      by_cases hm : n ∈ slot1.active_buttons.getD [] <;> simp [hm, hn]
    · rw [setSlot_lookup, gesture_detect_active]
      rfl
  · rw [if_neg hob, if_neg hob]
    have hsw := gesture_detect_names (can_trigger_swipe (setSlot m cs
        { slot1 with in_viewport := some true }) now cs)
        ({ slot1 with in_viewport := some true }) now xv yv
    have hz := counts_zero_of_swipe_names _ hsw n hn
    rw [not_not] at hob
    refine ⟨?_, ?_, ?_⟩
    · rw [List.nil_append, hz.1]
    · rw [List.nil_append, hz.2, hob]
      simp
    · rw [setSlot_lookup, gesture_detect_active]
      exact hob

lemma slotInd_congr (s s2 : Slot) (n : String)
    (h : s.active_buttons = s2.active_buttons) : slotInd s n = slotInd s2 n := by
  unfold slotInd
  rw [h]

lemma counts_nil (n : String) :
    pressCount [] n = 0 ∧ releaseCount [] n = 0 := ⟨rfl, rfl⟩

/-- One slot-local position/size event preserves the active-set
well-formedness and, for every catalog name, emits at most one key
transition, whose direction matches exactly the change of the name's
membership in the slot's active set. -/
lemma posStep_balance (m : Mapper) (t : ℚ) (e : TEvent)
    (he : IsPositionEvent e)
    (hOK : SlotOK (m.touch_slots m.current_slot)) :
    (runStep m t e).1.current_slot = m.current_slot ∧
    SlotOK ((runStep m t e).1.touch_slots m.current_slot) ∧
    ∀ n ∈ regionNames,
      pressCount (runStep m t e).2 n + releaseCount (runStep m t e).2 n ≤ 1 ∧
      (pressCount (runStep m t e).2 n : Int) - releaseCount (runStep m t e).2 n
        = slotInd ((runStep m t e).1.touch_slots m.current_slot) n
          - slotInd (m.touch_slots m.current_slot) n := by
  have main : ∀ c v,
      (process_touch_position m t c v).1.current_slot = m.current_slot ∧
      SlotOK ((process_touch_position m t c v).1.touch_slots m.current_slot) ∧
      ∀ n ∈ regionNames,
        pressCount (process_touch_position m t c v).2 n
          + releaseCount (process_touch_position m t c v).2 n ≤ 1 ∧
        (pressCount (process_touch_position m t c v).2 n : Int)
          - releaseCount (process_touch_position m t c v).2 n
          = slotInd ((process_touch_position m t c v).1.touch_slots m.current_slot) n
            - slotInd (m.touch_slots m.current_slot) n := by
    intro c v
    have hact : (store_position (m.touch_slots m.current_slot) c v).active_buttons
        = (m.touch_slots m.current_slot).active_buttons :=
      (store_position_fields _ c v).2.2.1
    have hOK1 : SlotOK (store_position (m.touch_slots m.current_slot) c v) := by
      unfold SlotOK at hOK ⊢
      rw [hact]
      exact hOK
    have hind1 : ∀ n, slotInd (store_position (m.touch_slots m.current_slot) c v) n
        = slotInd (m.touch_slots m.current_slot) n :=
      fun n => slotInd_congr _ _ n hact
    unfold process_touch_position
    cases hx : (store_position (m.touch_slots m.current_slot) c v).x with
    | none =>
      cases hy : (store_position (m.touch_slots m.current_slot) c v).y <;>
        simp only [hx, hy] <;>
          exact ⟨rfl, by rw [setSlot_lookup]; exact hOK1,
            fun n hn => ⟨by simp [pressCount, releaseCount],
              by rw [setSlot_lookup, hind1]; simp [pressCount, releaseCount]⟩⟩
    | some xv =>
      cases hy : (store_position (m.touch_slots m.current_slot) c v).y with
      | none =>
        simp only [hx, hy]
        exact ⟨rfl, by rw [setSlot_lookup]; exact hOK1,
          fun n hn => ⟨by simp [pressCount, releaseCount],
            by rw [setSlot_lookup, hind1]; simp [pressCount, releaseCount]⟩⟩
      | some yv =>
        simp only [hx, hy]
        split_ifs with hr hv hb
        · -- button mode
          have hnd := check_names_nodup xv yv
            ((store_position (m.touch_slots m.current_slot) c v).touch_size.getD 0)
          refine ⟨rfl, ?_, fun n hn => ?_⟩
          · rw [setSlot_lookup]
            constructor
            · show (Option.getD (some _) []).Nodup
              exact uab_result_nodup _ _ _
            · intro n hnmem
              show n ∈ regionNames
              have : n ∈ (check_touch_regions xv yv _).map Region.name :=
                (uab_mem_result _ _ _ n).1 hnmem
              exact check_names_sub _ _ _ n this
          · rw [uab_pressCount (store_position (m.touch_slots m.current_slot) c v)
                (check_touch_regions xv yv
                  ((store_position (m.touch_slots m.current_slot) c v).touch_size.getD 0))
                t n hnd,
              uab_releaseCount (store_position (m.touch_slots m.current_slot) c v)
                (check_touch_regions xv yv
                  ((store_position (m.touch_slots m.current_slot) c v).touch_size.getD 0))
                t n hOK1.1 hOK1.2, setSlot_lookup, ← hind1 n]
            unfold slotInd
            simp only [Option.getD_some, uab_mem_result]
            by_cases hmo : n ∈ (store_position (m.touch_slots m.current_slot) c v).active_buttons.getD [] <;>
              by_cases hmn : n ∈ (check_touch_regions xv yv
                ((store_position (m.touch_slots m.current_slot) c v).touch_size.getD 0)).map
                  Region.name <;>
                simp [hmo, hmn]
        · -- viewport mode
          have hvb := viewport_branch_balance m m.current_slot
            (store_position (m.touch_slots m.current_slot) c v) t xv yv hOK1.1
          refine ⟨rfl, ?_, fun n hn => ?_⟩
          · constructor
            · rw [(hvb "LOAD" (by decide)).2.2]
              exact List.nodup_nil
            · intro n hnmem
              rw [(hvb "LOAD" (by decide)).2.2] at hnmem
              cases hnmem
          · obtain ⟨hp, hr2, hact2⟩ := hvb n hn
            refine ⟨?_, ?_⟩
            · rw [hp, hr2]
              split_ifs <;> simp
            rw [hp, hr2, ← hind1 n]
            unfold slotInd
            rw [hact2]
            by_cases hmo : n ∈ (store_position (m.touch_slots m.current_slot) c v).active_buttons.getD [] <;>
              simp [hmo]
        · -- outside all regions, buttons released
          refine ⟨rfl, ?_, fun n hn => ?_⟩
          · rw [setSlot_lookup]
            exact ⟨by simp, by simp⟩
          · rw [flat_releases_pressCount,
              flat_releases_releaseCount _ t n hOK1.1, setSlot_lookup, ← hind1 n]
            unfold slotInd
            simp only [Option.getD_some]
            by_cases hmo : n ∈ (store_position (m.touch_slots m.current_slot) c v).active_buttons.getD [] <;>
              simp [hmo, hn]
        · -- outside all regions, nothing active
          refine ⟨rfl, ?_, fun n hn => ?_⟩
          · rw [setSlot_lookup]
            exact hOK1
          · exact ⟨by simp [pressCount, releaseCount],
              by simp [pressCount, releaseCount, setSlot_lookup, hind1]⟩
  cases e with
  | absSlot v => cases he
  | trackingId v => cases he
  | posX v => exact main .x v
  | posY v => exact main .y v
  | touchMajor v =>
    exact ⟨rfl, hOK, fun n hn => ⟨by simp [runStep, pressCount, releaseCount],
      by simp [runStep, pressCount, releaseCount]⟩⟩

lemma pressCount_take_le (l : List KeyEmit) (k : Nat) (n : String) :
    pressCount (l.take k) n ≤ pressCount l n :=
  List.Sublist.length_le (List.Sublist.filter _ (List.take_sublist k l))

lemma releaseCount_take_le (l : List KeyEmit) (k : Nat) (n : String) :
    releaseCount (l.take k) n ≤ releaseCount l n :=
  List.Sublist.length_le (List.Sublist.filter _ (List.take_sublist k l))

lemma balance_append (a b : List KeyEmit) (n : String) :
    balance (a ++ b) n = balance a n + balance b n := by
  unfold balance
  rw [pressCount_append, releaseCount_append]
  push_cast
  ring

lemma slotInd_range (s : Slot) (n : String) : 0 ≤ slotInd s n ∧ slotInd s n ≤ 1 := by
  unfold slotInd
  split_ifs <;> simp

/-- Processing the tracking-id end of a contact clears the slot dict, emits
no region press, and emits exactly one release for each active name. -/
lemma endStep_counts (m : Mapper) (t : ℚ)
    (hOK : SlotOK (m.touch_slots m.current_slot)) :
    (process_tracking_id m t (-1)).1.touch_slots m.current_slot = {} ∧
    ∀ n ∈ regionNames,
      pressCount (process_tracking_id m t (-1)).2 n = 0 ∧
      releaseCount (process_tracking_id m t (-1)).2 n
        = if n ∈ (m.touch_slots m.current_slot).active_buttons.getD []
          then 1 else 0 := by
  unfold process_tracking_id
  dsimp only
  rw [if_pos rfl]
  dsimp only
  refine ⟨by rw [setSlot_lookup], fun n hn => ?_⟩
  have hne : n ≠ "VIEWPORT" := by
    intro h
    subst h
    exact absurd hn (by decide)
  have hne2 : "VIEWPORT" ≠ n := Ne.symm hne
  constructor
  · rw [pressCount_append, flat_releases_pressCount]
    split_ifs
    · simp [pressCount, hne2]
    · simp [pressCount]
  · rw [releaseCount_append, flat_releases_releaseCount _ t n hOK.1]
    by_cases hmem : n ∈ (m.touch_slots m.current_slot).active_buttons.getD []
    · rw [if_pos ⟨hmem, hn⟩, if_pos hmem]
      split_ifs
      · simp [releaseCount, hne2]
      · simp [releaseCount]
    · rw [if_neg (fun hc => hmem hc.1), if_neg hmem]
      split_ifs
      · simp [releaseCount, hne2]
      · simp [releaseCount]

/-- Processing a tracking-id start emits nothing and installs a fresh slot
dict with an empty active set, leaving the slot selection unchanged. -/
lemma startStep_state (m : Mapper) (t : ℚ) (v : Int) (hv : ¬ v = -1) :
    (process_tracking_id m t v).2 = [] ∧
    ((process_tracking_id m t v).1.touch_slots m.current_slot).active_buttons
      = some [] ∧
    (process_tracking_id m t v).1.current_slot = m.current_slot := by
  unfold process_tracking_id
  dsimp only
  rw [if_neg hv]
  dsimp only
  exact ⟨rfl, by rw [setSlot_lookup], rfl⟩

/-- Over any run of slot-local position/size events, the per-name key balance
equals the change of the active-set indicator, and every emission prefix keeps
the indicator-plus-balance between 0 and 1. -/
lemma trace_balance (evs : List (ℚ × TEvent)) : ∀ m : Mapper,
    (∀ te ∈ evs, IsPositionEvent te.2) →
    SlotOK (m.touch_slots m.current_slot) →
    (runTrace m evs).1.current_slot = m.current_slot ∧
    SlotOK ((runTrace m evs).1.touch_slots m.current_slot) ∧
    ∀ n ∈ regionNames,
      balance (runTrace m evs).2 n
        = slotInd ((runTrace m evs).1.touch_slots m.current_slot) n
          - slotInd (m.touch_slots m.current_slot) n ∧
      ∀ k, 0 ≤ slotInd (m.touch_slots m.current_slot) n
              + balance ((runTrace m evs).2.take k) n ∧
           slotInd (m.touch_slots m.current_slot) n
              + balance ((runTrace m evs).2.take k) n ≤ 1 := by
  induction evs with
  | nil =>
    intro m hevs hOK
    refine ⟨rfl, hOK, fun n hn => ?_⟩
    constructor
    · simp [runTrace, balance, pressCount, releaseCount]
    · intro k
      have hb := slotInd_range (m.touch_slots m.current_slot) n
      have h0 : balance ((runTrace m ([] : List (ℚ × TEvent))).2.take k) n = 0 := by
        simp [runTrace, balance, pressCount, releaseCount]
      rw [h0]
      omega
  | cons te tl ih =>
    intro m hevs hOK
    obtain ⟨t, e⟩ := te
    obtain ⟨hcs, hOK2, hcounts⟩ :=
      posStep_balance m t e (hevs (t, e) (List.mem_cons_self _ _)) hOK
    have hOK2c : SlotOK ((runStep m t e).1.touch_slots
        (runStep m t e).1.current_slot) := by
      rw [hcs]
      exact hOK2
    obtain ⟨ihcs, ihOK, ihmain⟩ :=
      ih (runStep m t e).1 (fun te2 hte2 => hevs te2 (List.mem_cons_of_mem _ hte2))
        hOK2c
    rw [hcs] at ihcs ihOK ihmain
    have hrw : runTrace m ((t, e) :: tl)
        = ((runTrace (runStep m t e).1 tl).1,
           (runStep m t e).2 ++ (runTrace (runStep m t e).1 tl).2) := rfl
    rw [hrw]
    dsimp only
    refine ⟨ihcs, ihOK, fun n hn => ?_⟩
    obtain ⟨hc1, hc2⟩ := hcounts n hn
    obtain ⟨ihb, ihpre⟩ := ihmain n hn
    have hbΔ : balance (runStep m t e).2 n
        = slotInd ((runStep m t e).1.touch_slots m.current_slot) n
          - slotInd (m.touch_slots m.current_slot) n := hc2
    constructor
    · rw [balance_append, hbΔ, ihb]
      ring
    · intro k
      rw [List.take_append_eq_append_take, balance_append]
      by_cases hk : k ≤ (runStep m t e).2.length
      · have h0 : k - (runStep m t e).2.length = 0 := Nat.sub_eq_zero_of_le hk
        rw [h0, List.take_zero]
        have hb0 : balance ([] : List KeyEmit) n = 0 := by
          simp [balance, pressCount, releaseCount]
        rw [hb0]
        have hpt := pressCount_take_le (runStep m t e).2 k n
        have hrt := releaseCount_take_le (runStep m t e).2 k n
        have hiR := slotInd_range ((runStep m t e).1.touch_slots m.current_slot) n
        have hiM := slotInd_range (m.touch_slots m.current_slot) n
        unfold balance
        omega
      · push_neg at hk
        have htk : (runStep m t e).2.take k = (runStep m t e).2 :=
          List.take_of_length_le (le_of_lt hk)
        rw [htk, hbΔ]
        have hpre := ihpre (k - (runStep m t e).2.length)
        omega

/-- C5 (counterexample): two swipe press emissions from slot 0 separated by
only 1/20 s < SWIPE_COOLDOWN: a swipe fires at t = 2/5 in a first contact;
the contact ends, a new contact starts (resetting `last_swipe_time` to 0),
and a second swipe fires at t = 9/20. The claim that any two swipe emissions
from the same slot are at least SWIPE_COOLDOWN apart is therefore false
across contacts. -/
theorem swipe_cooldown_counterexample :
    ((runTrace initMapper
      [(0, .trackingId 7), (1/100, .posX 100), (2/100, .posY 100),
       (2/5, .posX 200), (41/100, .trackingId (-1)), (42/100, .trackingId 8),
       (43/100, .posX 100), (44/100, .posY 100),
       (9/20, .posX 200)]).2.filter isSwipePress)
      = [⟨[KEY_RIGHT], 1, "Swipe right", 2/5⟩,
         ⟨[KEY_RIGHT], 1, "Swipe right", 9/20⟩] ∧
    (9/20 : ℚ) - 2/5 < SWIPE_COOLDOWN := by
  constructor
  · norm_num [runTrace, runStep, process_tracking_id, process_touch_position,
      store_position, viewport_branch, gesture_detect, can_trigger_swipe,
      setSlot, check_touch_regions, baseScan, comboPartner, in_right_b_box,
      containsPt, touch_regions, region_LOAD, region_A, region_B, region_START,
      region_SELECT, region_RIGHT, region_UP, region_LEFT, region_DOWN,
      region_SAVE, region_EXIT, update_active_buttons, releaseName, addName,
      is_in_viewport, viewport, isSwipePress, swipeNames, SWIPE_COOLDOWN,
      VIEWPORT_TAP_TIMEOUT, SWIPE_MIN_DISTANCE, SWIPE_MIN_VERTICAL,
      SWIPE_MAX_OFF_AXIS, TOUCH_SIZE_THRESHOLD, initMapper, KEY_RIGHT]
    simp
    norm_num [isSwipePress, swipeNames, KEY_RIGHT]
  · norm_num [SWIPE_COOLDOWN]

/-- C5 (witness): for the concrete position-event run of a single contact
below, the hypotheses hold and the swipe presses are chained more than
SWIPE_COOLDOWN apart. -/
theorem swipe_cooldown_within_contact_witness :
    (∀ te ∈ [((1:ℚ)/100, TEvent.posX 100), (2/100, TEvent.posY 100),
      (2/5, TEvent.posX 200), (4/5, TEvent.posX 300)], IsPositionEvent te.2) ∧
    List.Chain' (fun a b : KeyEmit => b.time - a.time > SWIPE_COOLDOWN)
      ((runTrace (runStep initMapper 0 (.trackingId 7)).1
        [((1:ℚ)/100, TEvent.posX 100), (2/100, TEvent.posY 100),
         (2/5, TEvent.posX 200), (4/5, TEvent.posX 300)]).2.filter isSwipePress) :=
  ⟨by decide, swipe_cooldown_within_contact _ _ (by decide)⟩

/-- C10: `active_gestures` stays empty forever (no operation ever adds a
slot to it), so the "latched gesture" conjunct of `can_trigger_swipe` never
blocks: on every state reachable from one with an empty set, the guard
reduces to exactly the no-active-button and cooldown tests. -/
theorem active_gestures_empty (evs : List (ℚ × TEvent)) (m0 : Mapper)
    (h0 : m0.active_gestures = []) :
    (runTrace m0 evs).1.active_gestures = [] ∧
    ∀ (now : ℚ) (sid : Int),
      can_trigger_swipe (runTrace m0 evs).1 now sid =
        (!(((runTrace m0 evs).1.touch_slots sid).button_pressed.getD false) &&
         decide (now - ((runTrace m0 evs).1.touch_slots sid).last_swipe_time.getD 0
           > SWIPE_COOLDOWN)) := by
  have h1 : (runTrace m0 evs).1.active_gestures = [] := by
    induction evs generalizing m0 with
    | nil => exact h0
    | cons te evs ih =>
      rw [runTrace]
      exact ih _ (runStep_gestures m0 te.1 te.2 h0)
  refine ⟨h1, fun now sid => ?_⟩
  unfold can_trigger_swipe
  rw [h1]
  simp [List.contains]

/-- C10 (witness): from the freshly initialized mapper, after a concrete
contact that swipes, the gesture set is empty and the guard is just the
button and cooldown tests. -/
theorem active_gestures_empty_witness :
    initMapper.active_gestures = [] ∧
    (runTrace initMapper
      [(0, .trackingId 7), (1/100, .posX 100), (2/100, .posY 100),
       (2/5, .posX 200), (41/100, .trackingId (-1))]).1.active_gestures = [] ∧
    can_trigger_swipe
      (runTrace initMapper
        [(0, .trackingId 7), (1/100, .posX 100), (2/100, .posY 100),
         (2/5, .posX 200), (41/100, .trackingId (-1))]).1 1 0 =
      (!(((runTrace initMapper
        [(0, .trackingId 7), (1/100, .posX 100), (2/100, .posY 100),
         (2/5, .posX 200), (41/100, .trackingId (-1))]).1.touch_slots
            0).button_pressed.getD false) &&
       decide (1 - ((runTrace initMapper
        [(0, .trackingId 7), (1/100, .posX 100), (2/100, .posY 100),
         (2/5, .posX 200), (41/100, .trackingId (-1))]).1.touch_slots
            0).last_swipe_time.getD 0 > SWIPE_COOLDOWN)) := by
  refine ⟨rfl, ?_, ?_⟩
  · exact (active_gestures_empty _ initMapper rfl).1
  · exact (active_gestures_empty _ initMapper rfl).2 1 0

/-- C7: for a point strictly inside exactly one catalog region's rectangle,
with contact size strictly below the combo threshold, the hit test returns
exactly that region and nothing else. -/
theorem hit_test_single_region (x y ts : Int) (r : Region)
    (hr : r ∈ touch_regions) (hin : strictlyInside r x y)
    (_hone : ∀ s ∈ touch_regions, s ≠ r → ¬ strictlyInside s x y)
    (hts : ts < TOUCH_SIZE_THRESHOLD) :
    check_touch_regions x y ts = [r] := by
  have hno : ∀ s ∈ touch_regions, s ≠ r → containsPt s x y = false := by
    intro s hs hne
    have hsep : rectSeparated r s :=
      List.Pairwise.forall (fun a b h => rectSeparated_symm h)
        touch_regions_pairwise_sep hr hs (fun he => hne he.symm)
    exact not_contains_of_sep r s x y hsep hin
  have hcontains : containsPt r x y = true := by
    unfold strictlyInside at hin
    simp only [containsPt, Bool.and_eq_true, decide_eq_true_eq]
    omega
  have hnodup : touch_regions.Nodup := List.Nodup.of_map _ regionNames_nodup
  unfold check_touch_regions
  simp only
  have hbox : (in_right_b_box x y && decide (ts ≥ TOUCH_SIZE_THRESHOLD)) = false := by
    have hd : decide (ts ≥ TOUCH_SIZE_THRESHOLD) = false :=
      decide_eq_false (not_le.2 hts)
    simp [hd]
  rw [hbox]
  simp only [Bool.false_eq_true, if_false]
  unfold baseScan
  apply flatMap_eq_single touch_regions _ r r hnodup hr
  · rw [if_pos hcontains, comboPartner_small r ts hts]
  · intro s hs hne
    rw [hno s hs hne]
    simp

/-- C6: on a position/size update whose hit-test result `rs` is non-empty:
a previously-active directional name absent from `rs` gets exactly one
release and no press; a non-directional name newly in `rs` gets exactly one
press and no release; a name previously active and still in `rs` emits
nothing; a non-directional name previously active and now absent gets exactly
one release and no press; and the slot's `active_buttons` becomes exactly the
set of names of `rs`. -/
theorem button_diffing (m : Mapper) (now : ℚ) (code : PosCode) (v : Int)
    (xv yv : Int) (rs : List Region) (old : List String)
    (hx : (store_position (m.touch_slots m.current_slot) code v).x = some xv)
    (hy : (store_position (m.touch_slots m.current_slot) code v).y = some yv)
    (hrs : rs = check_touch_regions xv yv
      ((store_position (m.touch_slots m.current_slot) code v).touch_size.getD 0))
    (hold : old = (m.touch_slots m.current_slot).active_buttons.getD [])
    (hOK : SlotOK (m.touch_slots m.current_slot))
    (hne : rs ≠ []) :
    (∀ n ∈ directional_keys, n ∈ old → n ∉ rs.map Region.name →
        releaseCount (process_touch_position m now code v).2 n = 1 ∧
        pressCount (process_touch_position m now code v).2 n = 0) ∧
    (∀ n, n ∉ directional_keys → n ∈ rs.map Region.name → n ∉ old →
        pressCount (process_touch_position m now code v).2 n = 1 ∧
        releaseCount (process_touch_position m now code v).2 n = 0) ∧
    (∀ n, n ∈ old → n ∈ rs.map Region.name →
        pressCount (process_touch_position m now code v).2 n = 0 ∧
        releaseCount (process_touch_position m now code v).2 n = 0) ∧
    (∀ n, n ∉ directional_keys → n ∈ old → n ∉ rs.map Region.name →
        releaseCount (process_touch_position m now code v).2 n = 1 ∧
        pressCount (process_touch_position m now code v).2 n = 0) ∧
    (∀ n, n ∈ (((process_touch_position m now code v).1.touch_slots
          m.current_slot).active_buttons.getD [])
        ↔ n ∈ rs.map Region.name) := by
  have hsp : (store_position (m.touch_slots m.current_slot) code v).active_buttons
      = (m.touch_slots m.current_slot).active_buttons := by
    cases code <;> rfl
  have hold1 : (store_position (m.touch_slots m.current_slot) code v).active_buttons.getD []
      = old := by rw [hsp, ← hold]
  have hnd : (rs.map Region.name).Nodup := by
    rw [hrs]
    exact check_names_nodup _ _ _
  have holdnd : old.Nodup := by
    rw [hold]
    exact hOK.1
  have holdsub : ∀ x ∈ old, x ∈ regionNames := by
    rw [hold]
    exact hOK.2
  have hred : process_touch_position m now code v = (setSlot m m.current_slot
      { (store_position (m.touch_slots m.current_slot) code v) with
        active_buttons := some (update_active_buttons
          (store_position (m.touch_slots m.current_slot) code v) rs now).1,
        button_pressed := some true },
      (update_active_buttons
        (store_position (m.touch_slots m.current_slot) code v) rs now).2) := by
    unfold process_touch_position
    simp only [hx, hy]
    rw [← hrs, if_pos hne]
  rw [hred]
  have hpc := fun n => uab_pressCount
    (store_position (m.touch_slots m.current_slot) code v) rs now n hnd
  have hrc := fun n => uab_releaseCount
    (store_position (m.touch_slots m.current_slot) code v) rs now n
    (hold1 ▸ holdnd) (hold1 ▸ holdsub)
  rw [hold1] at hpc hrc
  refine ⟨?_, ?_, ?_, ?_, ?_⟩
  · intro n _ h1 h2
    rw [hrc n, hpc n]
    simp [h1, h2]
  · intro n _ h1 h2
    rw [hrc n, hpc n]
    simp [h1, h2]
  · intro n h1 h2
    rw [hrc n, hpc n]
    simp [h1, h2]
  · intro n _ h1 h2
    rw [hrc n, hpc n]
    simp [h1, h2]
  · intro n
    simp only [setSlot, if_pos rfl]
    simpa using uab_mem_result
      (store_position (m.touch_slots m.current_slot) code v) rs now n

/-- C6 (witness): a position update moving a contact with `A BTN` held into
the B BTN rectangle with a large contact: A BTN (non-directional, departed)
is released once, B BTN and RIGHT are pressed once each, and the active set
becomes the names of the hit-test result. -/
theorem button_diffing_witness :
    let m0 : Mapper :=
      { touch_slots := fun i => if i = 0 then
          { x := some 500, y := some 320, start_x := some 500,
            start_y := some 320, active_buttons := some ["A BTN"],
            button_pressed := some true, touch_size := some 45 } else {},
        current_slot := 0, active_gestures := [] }
    (store_position (m0.touch_slots 0) PosCode.y 330).x = some 500 ∧
    (store_position (m0.touch_slots 0) PosCode.y 330).y = some 330 ∧
    (check_touch_regions 500 330
      ((store_position (m0.touch_slots 0) PosCode.y 330).touch_size.getD 0)).map
        Region.name = ["B BTN", "A BTN", "RIGHT"] ∧
    pressCount (process_touch_position m0 1 PosCode.y 330).2 "B BTN" = 1 ∧
    releaseCount (process_touch_position m0 1 PosCode.y 330).2 "A BTN" = 0 := by
  intro m0
  refine ⟨by decide, by decide, by decide, ?_, ?_⟩
  · have h := (button_diffing m0 1 PosCode.y 330 500 330
      (check_touch_regions 500 330 45) ["A BTN"] (by decide) (by decide)
      (by decide) (by decide) (by constructor <;> decide) (by decide)).2.1
    exact (h "B BTN" (by decide) (by decide) (by decide)).1
  · have h := (button_diffing m0 1 PosCode.y 330 500 330
      (check_touch_regions 500 330 45) ["A BTN"] (by decide) (by decide)
      (by decide) (by decide) (by constructor <;> decide) (by decide)).2.2.1
    exact (h "A BTN" (by decide) (by decide)).2

/-- C7 (witness): (100,240) is strictly inside the LOAD rectangle only, and
with size 0 the hit test returns exactly the LOAD region. -/
theorem hit_test_single_region_witness :
    region_LOAD ∈ touch_regions ∧ strictlyInside region_LOAD 100 240 ∧
    (∀ s ∈ touch_regions, s ≠ region_LOAD → ¬ strictlyInside s 100 240) ∧
    (0 : Int) < TOUCH_SIZE_THRESHOLD ∧
    check_touch_regions 100 240 0 = [region_LOAD] :=
  ⟨by decide, by decide, by decide, by decide,
   hit_test_single_region 100 240 0 region_LOAD (by decide) (by decide)
     (by decide) (by decide)⟩

/-- C1: no-stuck-key invariant. Over a full contact — a tracking-id start,
any run of slot-local position/size events, then the tracking-id end — and
for every region name: every prefix of the contact's emission stream keeps
the press-minus-release balance between 0 and 1, the balance over the whole
contact is 0, each name still in the slot's active set when the end arrives
receives exactly one release while the end is processed, and the slot dict
is cleared. -/
theorem no_stuck_key (m : Mapper) (t0 t1 : ℚ) (v : Int)
    (evs : List (ℚ × TEvent)) (mid fin2 : Mapper × List KeyEmit)
    (E : List KeyEmit)
    (hv : ¬ v = -1)
    (hevs : ∀ te ∈ evs, IsPositionEvent te.2)
    (hmid : mid = runTrace (runStep m t0 (.trackingId v)).1 evs)
    (hfin : fin2 = runStep mid.1 t1 (.trackingId (-1)))
    (hE : E = (runStep m t0 (.trackingId v)).2 ++ mid.2 ++ fin2.2) :
    ∀ n ∈ regionNames,
      (∀ k, 0 ≤ balance (E.take k) n ∧ balance (E.take k) n ≤ 1) ∧
      balance E n = 0 ∧
      releaseCount fin2.2 n
        = (if n ∈ (mid.1.touch_slots m.current_slot).active_buttons.getD []
           then 1 else 0) ∧
      fin2.1.touch_slots m.current_slot = {} := by
  subst hmid hfin hE
  simp only [runStep]
  obtain ⟨hs2, hsact, hscs⟩ := startStep_state m t0 v hv
  have hOK1 : SlotOK ((process_tracking_id m t0 v).1.touch_slots
      (process_tracking_id m t0 v).1.current_slot) := by
    rw [hscs]
    unfold SlotOK
    rw [hsact]
    simp
  obtain ⟨htcs, htOK, htmain⟩ :=
    trace_balance evs (process_tracking_id m t0 v).1 hevs hOK1
  rw [hscs] at htcs htOK htmain
  have hOKmid : SlotOK
      ((runTrace (process_tracking_id m t0 v).1 evs).1.touch_slots
        (runTrace (process_tracking_id m t0 v).1 evs).1.current_slot) := by
    rw [htcs]
    exact htOK
  obtain ⟨hclr, hend⟩ :=
    endStep_counts (runTrace (process_tracking_id m t0 v).1 evs).1 t1 hOKmid
  rw [htcs] at hclr hend
  intro n hn
  obtain ⟨htb, htpre⟩ := htmain n hn
  obtain ⟨hp0, hr1⟩ := hend n hn
  have hind0 : slotInd ((process_tracking_id m t0 v).1.touch_slots
      m.current_slot) n = 0 := by
    unfold slotInd
    rw [hsact]
    simp
  rw [hind0] at htb htpre
  simp only [hs2, List.nil_append]
  refine ⟨?_, ?_, hr1, hclr⟩
  · intro k
    rw [List.take_append_eq_append_take, balance_append]
    by_cases hk : k ≤ (runTrace (process_tracking_id m t0 v).1 evs).2.length
    · rw [Nat.sub_eq_zero_of_le hk, List.take_zero]
      have hb0 : balance ([] : List KeyEmit) n = 0 := by
        simp [balance, pressCount, releaseCount]
      rw [hb0]
      have := htpre k
      omega
    · push_neg at hk
      rw [List.take_of_length_le (le_of_lt hk), htb]
      have hpt := pressCount_take_le
        (process_tracking_id (runTrace (process_tracking_id m t0 v).1 evs).1
          t1 (-1)).2
        (k - (runTrace (process_tracking_id m t0 v).1 evs).2.length) n
      have hrt := releaseCount_take_le
        (process_tracking_id (runTrace (process_tracking_id m t0 v).1 evs).1
          t1 (-1)).2
        (k - (runTrace (process_tracking_id m t0 v).1 evs).2.length) n
      rw [hp0] at hpt
      rw [hr1] at hrt
      unfold balance
      simp only [slotInd]
      by_cases hmem : n ∈ ((runTrace (process_tracking_id m t0 v).1
          evs).1.touch_slots m.current_slot).active_buttons.getD []
      · rw [if_pos hmem] at hrt
        rw [if_pos hmem]
        omega
      · rw [if_neg hmem] at hrt
        rw [if_neg hmem]
        omega
  · rw [balance_append, htb]
    unfold balance
    rw [hp0, hr1]
    simp only [slotInd]
    by_cases hmem : n ∈ ((runTrace (process_tracking_id m t0 v).1
        evs).1.touch_slots m.current_slot).active_buttons.getD [] <;>
      simp [hmem]

/-- C1 (witness): a concrete contact — start, a press of B BTN at (450,340),
then the contact end — has hypotheses holding and total balance 0 for
"B BTN". -/
theorem no_stuck_key_witness :
    (¬ (7 : Int) = -1) ∧
    (∀ te ∈ ([((1:ℚ)/100, TEvent.posX 450), (2/100, TEvent.posY 340)] :
      List (ℚ × TEvent)), IsPositionEvent te.2) ∧
    balance ((runStep initMapper 0 (TEvent.trackingId 7)).2
      ++ (runTrace (runStep initMapper 0 (TEvent.trackingId 7)).1
            [((1:ℚ)/100, TEvent.posX 450), (2/100, TEvent.posY 340)]).2
      ++ (runStep (runTrace (runStep initMapper 0 (TEvent.trackingId 7)).1
            [((1:ℚ)/100, TEvent.posX 450), (2/100, TEvent.posY 340)]).1
          (1/10) (TEvent.trackingId (-1))).2) "B BTN" = 0 :=
  ⟨by decide, by decide,
    ((no_stuck_key initMapper 0 (1/10) 7
      [((1:ℚ)/100, TEvent.posX 450), (2/100, TEvent.posY 340)]
      _ _ _ (by decide) (by decide) rfl rfl rfl) "B BTN" (by decide)).2.1⟩

end Nintardis
